import Mathlib

/-!
Verification of the matchmaking / game-session server in `src/server.js`
(Roy9957/GAME-SERVER).  The JavaScript is shallowly embedded: JS objects
used as string-keyed maps become association lists in insertion order,
Firebase nodes become components of a `DB` record, `Date.now()` and the
Firebase server timestamp become explicit `now : Nat` parameters, and
`Math.random()` becomes an explicit oracle.  Each HTTP handler and each
background callback of the source becomes a pure Lean function from the
pre-state to the post-state plus response.
-/

namespace GameServer

/-! ### Association lists with JS-object semantics

A JS object holds at most one binding per key; `obj[k] = v` overwrites in
place, a fresh key is appended (JS insertion order, which is also the
`Object.keys` / `Object.entries` / `for..in` order for the non-numeric
keys this server uses).  Firebase `update` / `set` / `remove` on a child
path behave the same way on the parent map. -/

/-- Reading `obj[k]`: the binding for `k`, if present. -/
def lookupA {κ α : Type} [DecidableEq κ] : List (κ × α) → κ → Option α
  | [], _ => none
  | e :: t, k => if e.1 = k then some e.2 else lookupA t k

/-- Writing `obj[k] = v`: overwrite the binding in place, else append. -/
def setA {κ α : Type} [DecidableEq κ] : List (κ × α) → κ → α → List (κ × α)
  | [], k, v => [(k, v)]
  | e :: t, k, v => if e.1 = k then (k, v) :: t else e :: setA t k v

/-- Deleting `delete obj[k]` (or Firebase `remove()`). -/
def removeA {κ α : Type} [DecidableEq κ] (l : List (κ × α)) (k : κ) : List (κ × α) :=
  l.filter (fun e => e.1 ≠ k)

/-- Mutating the object stored under `k` through its reference
(`obj[k].field = v`). -/
def updateA {κ α : Type} [DecidableEq κ] (l : List (κ × α)) (k : κ) (f : α → α) :
    List (κ × α) :=
  l.map (fun e => if e.1 = k then (e.1, f e.2) else e)

/-- How many bindings an association list holds for key `k`. -/
def countKey {κ α : Type} [DecidableEq κ] (l : List (κ × α)) (k : κ) : Nat :=
  (l.filter (fun e => e.1 = k)).length

/-! ### Constants (server.js lines 52-55) -/

def MATCH_CONFIRMATION_TIMEOUT : Nat := 15000

def PLAYER_TIMEOUT : Nat := 300000

def MATCH_EXPIRATION : Nat := 3600000

def HEARTBEAT_INTERVAL : Nat := 30000

/-! ### Game state (initializeGameState / generateTerrain / processGameAction) -/

/-- A 2D point, as the `{x, y}` objects of the source (the claims use
integral coordinates). -/
structure Pos where
  x : Int
  y : Int
deriving DecidableEq, Repr

/-- Per-player sub-state of the game state (initializeGameState). -/
structure PlayerState where
  position : Pos
  health : Int
  score : Int
  lastAction : Nat
deriving DecidableEq, Repr

/-- One obstacle of the generated terrain. -/
structure Obstacle where
  x : Int
  y : Int
  width : Int
  height : Int
deriving DecidableEq, Repr

/-- The terrain object returned by generateTerrain (its random contents are
supplied by the oracle below). -/
structure Terrain where
  width : Int
  height : Int
  obstacles : List Obstacle
deriving DecidableEq, Repr

/-- The authoritative game state held by a game session. -/
structure GameState where
  players : List (String × PlayerState)
  objects : List (String × Int)
  terrain : Terrain
  startTime : Nat
  lastUpdate : Nat
deriving DecidableEq, Repr

/-- A client action as the handler sees it: a JS object with a `type` string
tag (the dispatch key of processGameAction) plus the payload fields the known
kinds read. -/
structure Action where
  type : String
  position : Pos
  direction : Int
deriving DecidableEq, Repr

/-- Events emitted by processGameAction. -/
inductive GameEvent
  | playerMoved (playerId : String) (position : Pos)
  | projectileFired (playerId : String) (origin : Pos) (direction : Int) (timestamp : Nat)
deriving DecidableEq, Repr

/-- The `{ newState, events }` record processGameAction returns. -/
structure ActionResult where
  newState : GameState
  events : List GameEvent
deriving DecidableEq, Repr

/-- `JSON.parse(JSON.stringify(state))`: a deep copy.  On this data model the
round trip preserves the value exactly (the state holds only numbers, strings
and plain objects/arrays), so as a value it is the identity; the heap model
below accounts for it allocating a fresh object. -/
def jsonDeepCopy (s : GameState) : GameState := s

/-- processGameAction (server.js lines 309-345): look the player up, deep-copy
the state, dispatch on `action.type` (`move` mutates the copied player's
position and emits `playerMoved`; `shoot` emits `projectileFired` from the old
position; `ability` and the `default` branch mutate nothing and emit nothing,
the default only logging a console warning), then stamp the copied player's
`lastAction` and the copy's `lastUpdate` with the current time. -/
def processGameAction (state : GameState) (playerId : String) (action : Action)
    (now : Nat) : ActionResult :=
  match lookupA state.players playerId with
  | none => { newState := state, events := [] }
  | some player =>
    let base := jsonDeepCopy state
    let step :=
      if action.type = "move" then
        ({ base with
           players := updateA base.players playerId
                        (fun p => { p with position := action.position }) },
         [GameEvent.playerMoved playerId action.position])
      else if action.type = "shoot" then
        (base, [GameEvent.projectileFired playerId player.position action.direction now])
      else if action.type = "ability" then
        (base, ([] : List GameEvent))
      else
        (base, ([] : List GameEvent))
    let stamped : GameState :=
      { step.1 with
        players := updateA step.1.players playerId (fun p => { p with lastAction := now }),
        lastUpdate := now }
    { newState := stamped, events := step.2 }

/-- Oracle for the source's `Math.random()` uses: starting positions (indexed
by the player's position in the list) and the generated terrain. -/
structure RandOracle where
  pos : Nat → Pos
  terrain : Terrain

/-- initializeGameState (server.js lines 290-307): a fresh per-player
sub-state for every participant (health 100, score 0, a random position,
lastAction now), no objects, freshly generated terrain. -/
def initializeGameState (players : List String) (now : Nat) (rnd : RandOracle) :
    GameState :=
  { players := players.enum.map (fun ie =>
      (ie.2, { position := rnd.pos ie.1, health := 100, score := 0,
               lastAction := now })),
    objects := [],
    terrain := rnd.terrain,
    startTime := now,
    lastUpdate := now }

/-! ### The in-memory server state (server.js lines 42-49)

`serverState.gameSessions` is a single JS object: `/api/connect` stores
player-session records in it keyed by playerId (line 80) and match
confirmation stores game-session records in it keyed by matchId (line 198).
The two record shapes share the one map. -/

/-- The record `/api/connect` stores under `gameSessions[playerId]`. -/
structure PlayerSessionRec where
  connectedAt : Nat
  lastActivity : Nat
  clientInfo : List (String × String)
  status : String
deriving DecidableEq, Repr

/-- The record match confirmation stores under `gameSessions[matchId]`.
`lastActivity` is absent when the record is created (`none`); a heartbeat
that hits this key would add the property (line 102 assigns it on whatever
record is stored there). -/
structure GameSessionRec where
  players : List String
  startedAt : Nat
  lastUpdate : Nat
  lastActivity : Option Nat
  gameState : GameState
deriving DecidableEq, Repr

/-- A value of the shared `serverState.gameSessions` map: either shape of
plain JS object. -/
inductive SessionRec
  | player (rec : PlayerSessionRec)
  | game (rec : GameSessionRec)
deriving DecidableEq, Repr

/-- An element of the in-memory `serverState.matchmakingQueue` array
(line 140: `{ playerId, ...playerData, timestamp }`). -/
structure MemQueueEntry where
  playerId : String
  ping : Int
  score : Int
  timestamp : Nat
deriving DecidableEq, Repr

/-- `serverState` (lines 43-49). -/
structure ServerState where
  playersConnected : Int
  serverLoad : Int
  lastPing : Nat
  gameSessions : List (String × SessionRec)
  matchmakingQueue : List MemQueueEntry
deriving DecidableEq, Repr

/-! ### The external Firebase database

The nodes the server reads and writes: `matchmaking/`, `matchProposals/`,
`matches/` and `players/` (the last is only ever read by this server; some
external writer populates it).  `ServerValue.TIMESTAMP` is the `now`
parameter of the operation that writes it. -/

/-- The opaque `playerData` a client sends on queue join, and the value of a
`players/{pid}` node: the fields the server reads are the latency metric
`ping` and `score`. -/
structure PlayerData where
  ping : Int
  score : Int
deriving DecidableEq, Repr

/-- A `matchmaking/{pid}` queue node: `{ ...playerData, status, timestamp }`. -/
structure QueueRec where
  ping : Int
  score : Int
  status : String
  timestamp : Nat
deriving DecidableEq, Repr

/-- A `matchProposals/{pid}` node (lines 434-448). -/
structure Proposal where
  matchId : String
  opponentId : String
  opponentPing : Int
  opponentScore : Int
  status : String
deriving DecidableEq, Repr

/-- A `matches/{mid}/players/{pid}` node.  The pairing loop writes
`{ status: 'pending', ...player[1] }` — the spread comes after the literal,
so the queue entry's own `status` ('waiting') overwrites 'pending'; a
player entry freshly created by a confirm update holds only `status` and
`timestamp`, which this model renders with `ping`/`score` defaulted to 0. -/
structure MatchPlayer where
  status : String
  timestamp : Nat
  ping : Int
  score : Int
deriving DecidableEq, Repr

/-- A `matches/{mid}` node.  Keys a Firebase `update` never wrote are absent;
the model renders an absent string as `""`, an absent optional as `none` and
an absent number as `0`. -/
structure MatchRec where
  id : String
  players : List (String × MatchPlayer)
  status : String
  reason : Option String
  rejectedBy : Option String
  createdAt : Nat
deriving DecidableEq, Repr

/-- The database state.  The `matches/` node is called `matchesDb` here only
because `matches` is a reserved word in Lean. -/
structure DB where
  matchmaking : List (String × QueueRec)
  matchProposals : List (String × Proposal)
  matchesDb : List (String × MatchRec)
  players : List (String × PlayerData)
deriving DecidableEq, Repr

/-- A plain HTTP response: status code plus the `status`/`error` string of
the JSON body. -/
structure ApiResp where
  code : Nat
  status : String
deriving DecidableEq, Repr

/-! ### Session endpoints (server.js lines 69-119) -/

/-- `/api/connect` (lines 69-93): empty playerId is a 400; otherwise bump the
connection counter and load, refresh lastPing, and store a fresh
player-session record under `gameSessions[playerId]`, overwriting whatever
binding that key held. -/
def apiConnect (s : ServerState) (playerId : String)
    (clientInfo : List (String × String)) (now : Nat) : ServerState × ApiResp :=
  if playerId = "" then
    (s, { code := 400, status := "Player ID is required" })
  else
    ({ s with
       playersConnected := s.playersConnected + 1,
       serverLoad := min 100 (s.serverLoad + 5),
       lastPing := now,
       gameSessions := setA s.gameSessions playerId
         (SessionRec.player
           { connectedAt := now, lastActivity := now, clientInfo := clientInfo,
             status := "connected" }) },
     { code := 200, status := "connected" })

/-- `/api/heartbeat` (lines 95-109): 404 when the id is falsy or unbound;
otherwise assign `lastActivity` on the record stored at that key (adding the
property when the key holds a game-session record) and refresh lastPing. -/
def apiHeartbeat (s : ServerState) (playerId : String) (now : Nat) :
    ServerState × ApiResp :=
  if playerId = "" then
    (s, { code := 404, status := "Session not found" })
  else
    match lookupA s.gameSessions playerId with
    | none => (s, { code := 404, status := "Session not found" })
    | some rec =>
      let rec2 :=
        match rec with
        | SessionRec.player p => SessionRec.player { p with lastActivity := now }
        | SessionRec.game g => SessionRec.game { g with lastActivity := some now }
      ({ s with gameSessions := setA s.gameSessions playerId rec2, lastPing := now },
       { code := 200, status := "active" })

/-- cleanupPlayer's `for..in` loop over `gameSessions` (lines 365-376), walked
in key order: a game-session record has the player spliced out of `players`
and is deleted when that leaves it empty; the first player-session record
reached raises a TypeError (`session.players` is `undefined`), aborting the
loop with the entries so far mutated and the rest untouched.  Returns the map
as mutated and whether the loop threw. -/
def cleanupLoop (pid : String) :
    List (String × SessionRec) → List (String × SessionRec) × Bool
  | [] => ([], false)
  | (k, SessionRec.game g) :: t =>
    if pid ∈ g.players then
      let g2 : GameSessionRec := { g with players := g.players.erase pid }
      if g2.players.isEmpty then
        cleanupLoop pid t
      else
        let r := cleanupLoop pid t
        ((k, SessionRec.game g2) :: r.1, r.2)
    else
      let r := cleanupLoop pid t
      ((k, SessionRec.game g) :: r.1, r.2)
  | (k, SessionRec.player p) :: t => ((k, SessionRec.player p) :: t, true)

/-- cleanupPlayer (lines 360-379): decrement the counter and the load, run
the eviction loop, and — only when the loop did not throw — delete
`gameSessions[playerId]`.  Returns the state as mutated and whether a
TypeError escaped (the caller's request then ends in express's 500
handler). -/
def cleanupPlayer (s : ServerState) (pid : String) : ServerState × Bool :=
  let s1 : ServerState :=
    { s with playersConnected := s.playersConnected - 1,
             serverLoad := max 0 (s.serverLoad - 5) }
  let r := cleanupLoop pid s1.gameSessions
  if r.2 then
    ({ s1 with gameSessions := r.1 }, true)
  else
    ({ s1 with gameSessions := removeA r.1 pid }, false)

/-- `/api/disconnect` (lines 111-119): cleanupPlayer when the id is truthy
and bound; a TypeError escaping cleanupPlayer becomes the 500 of the error
middleware, otherwise the body is `{ status: 'disconnected' }`. -/
def apiDisconnect (s : ServerState) (playerId : String) : ServerState × ApiResp :=
  if playerId = "" then
    (s, { code := 200, status := "disconnected" })
  else
    match lookupA s.gameSessions playerId with
    | none => (s, { code := 200, status := "disconnected" })
    | some _ =>
      let r := cleanupPlayer s playerId
      if r.2 then (r.1, { code := 500, status := "Something went wrong!" })
      else (r.1, { code := 200, status := "disconnected" })

/-! ### Matchmaking endpoints (server.js lines 122-234) -/

/-- `/api/matchmaking/join` (lines 122-151): 400 when `matchmaking/{pid}`
already exists; otherwise write the Firebase queue node and push an entry on
the in-memory `serverState.matchmakingQueue` array.  The duplicate check
reads only the external store. -/
def apiMatchmakingJoin (s : ServerState) (db : DB) (playerId : String)
    (playerData : PlayerData) (now : Nat) : ServerState × DB × ApiResp :=
  match lookupA db.matchmaking playerId with
  | some _ => (s, db, { code := 400, status := "Already in matchmaking queue" })
  | none =>
    let entry : MemQueueEntry :=
      { playerId := playerId, ping := playerData.ping, score := playerData.score,
        timestamp := now }
    let node : QueueRec :=
      { ping := playerData.ping, score := playerData.score, status := "waiting",
        timestamp := now }
    ({ s with matchmakingQueue := s.matchmakingQueue ++ [entry] },
     { db with matchmaking := setA db.matchmaking playerId node },
     { code := 200, status := "in_queue" })

/-- The Firebase `update` on `matches/{mid}/players/{pid}` performed by the
accept branch (lines 184-187): merge `{status: 'ready', timestamp: now}` into
the player entry, creating the entry — and, when the match node itself is
absent, the match node — with only the written keys (absent siblings
default). -/
def updMatchPlayerReady (ms : List (String × MatchRec)) (mid pid : String)
    (now : Nat) : List (String × MatchRec) :=
  match lookupA ms mid with
  | some m =>
    let pnew : MatchPlayer :=
      match lookupA m.players pid with
      | some p => { p with status := "ready", timestamp := now }
      | none => { status := "ready", timestamp := now, ping := 0, score := 0 }
    setA ms mid { m with players := setA m.players pid pnew }
  | none =>
    setA ms mid
      { id := "", players := [(pid, { status := "ready", timestamp := now,
                                      ping := 0, score := 0 })],
        status := "", reason := none, rejectedBy := none, createdAt := 0 }

/-- The Firebase `update` on `matches/{mid}` that writes only `status`
(line 195): merge into the current node, creating it when absent. -/
def updMatchStatus (ms : List (String × MatchRec)) (mid st : String) :
    List (String × MatchRec) :=
  match lookupA ms mid with
  | some m => setA ms mid { m with status := st }
  | none =>
    setA ms mid { id := "", players := [], status := st, reason := none,
                  rejectedBy := none, createdAt := 0 }

/-- The accept branch of `/api/matchmaking/confirm` (lines 182-206): write
the caller's ready status into the match, re-read the match, and when every
listed player is ready set the match status to `active` and store a fresh
game session under `serverState.gameSessions[matchId]`.  No check that the
match is in a confirmable state or that the caller is one of its players is
performed.  The unreachable null re-read is rendered as the catch-all 500. -/
def confirmAccept (s : ServerState) (db : DB) (playerId matchId : String)
    (now : Nat) (rnd : RandOracle) : ServerState × DB × ApiResp :=
  let db1 : DB := { db with matchesDb := updMatchPlayerReady db.matchesDb matchId playerId now }
  match lookupA db1.matchesDb matchId with
  | none => (s, db1, { code := 500, status := "Failed to confirm match" })
  | some m =>
    if m.players.all (fun p => p.2.status = "ready") then
      let db2 : DB := { db1 with matchesDb := updMatchStatus db1.matchesDb matchId "active" }
      let pids := m.players.map (fun p => p.1)
      let gs : GameSessionRec :=
        { players := pids, startedAt := now, lastUpdate := now,
          lastActivity := none,
          gameState := initializeGameState pids now rnd }
      ({ s with gameSessions := setA s.gameSessions matchId (SessionRec.game gs) },
       db2, { code := 200, status := "confirmed" })
    else
      (s, db1, { code := 200, status := "confirmed" })

/-- The reject branch of `/api/matchmaking/confirm` (lines 207-229): merge
`{status: 'cancelled', reason: 'rejected', rejectedBy: playerId}` into the
match node, remove the REJECTING caller's own proposal, and — when a
`players/{playerId}` node exists — write the REJECTING caller back into the
matchmaking queue with status 'waiting'.  The other participant is not
touched.  No check of match state or membership is performed. -/
def confirmReject (db : DB) (playerId matchId : String) (now : Nat) :
    DB × ApiResp :=
  let matches1 :=
    match lookupA db.matchesDb matchId with
    | some m =>
      setA db.matchesDb matchId
        { m with status := "cancelled", reason := some "rejected",
                 rejectedBy := some playerId }
    | none =>
      setA db.matchesDb matchId
        { id := "", players := [], status := "cancelled", reason := some "rejected",
          rejectedBy := some playerId, createdAt := 0 }
  let db1 : DB := { db with matchesDb := matches1,
                            matchProposals := removeA db.matchProposals playerId }
  match lookupA db1.players playerId with
  | some pd =>
    let node : QueueRec :=
      { ping := pd.ping, score := pd.score, status := "waiting", timestamp := now }
    ({ db1 with matchmaking := setA db1.matchmaking playerId node },
     { code := 200, status := "rejected" })
  | none => (db1, { code := 200, status := "rejected" })

/-! ### Game action endpoint (server.js lines 257-287) -/

/-- The response of `/api/game/action`: code, `status`/`error` string, and
the emitted events of the body. -/
structure GameActionResp where
  code : Nat
  status : String
  events : List GameEvent
deriving DecidableEq, Repr

/-- `/api/game/action` (lines 257-287): 404 unless `gameSessions[matchId]`
is bound and lists playerId among its players; otherwise run
processGameAction on the stored state and only then commit the returned
`newState` (and a fresh `lastUpdate`) back into the session.  A binding that
holds a player-session record makes `.players.includes` raise a TypeError
(rendered 500). -/
def apiGameAction (s : ServerState) (matchId playerId : String) (action : Action)
    (now : Nat) : ServerState × GameActionResp :=
  match lookupA s.gameSessions matchId with
  | none => (s, { code := 404, status := "Game session not found", events := [] })
  | some (SessionRec.player _) =>
    (s, { code := 500, status := "TypeError", events := [] })
  | some (SessionRec.game g) =>
    if playerId ∈ g.players then
      let result := processGameAction g.gameState playerId action now
      let g2 : GameSessionRec := { g with gameState := result.newState, lastUpdate := now }
      ({ s with gameSessions := setA s.gameSessions matchId (SessionRec.game g2) },
       { code := 200, status := "processed", events := result.events })
    else
      (s, { code := 404, status := "Game session not found", events := [] })

/-! ### Cleanup sweep (server.js lines 382-401) -/

/-- The first forEach of the one-minute sweep, over a snapshot of the keys:
a record whose `lastActivity` is older than PLAYER_TIMEOUT goes through
cleanupPlayer (a record without the property — a game session no heartbeat
ever hit — compares as NaN and is skipped; a key already deleted by an
earlier cleanupPlayer raises a TypeError, as does cleanupPlayer itself on
the first player record it walks into).  Returns the state so far and
whether a TypeError escaped, which aborts the whole callback. -/
def cleanupSweepLoop (now : Nat) : List String → ServerState → ServerState × Bool
  | [], s => (s, false)
  | k :: t, s =>
    match lookupA s.gameSessions k with
    | none => (s, true)
    | some rec =>
      let la : Option Nat :=
        match rec with
        | SessionRec.player p => some p.lastActivity
        | SessionRec.game g => g.lastActivity
      match la with
      | none => cleanupSweepLoop now t s
      | some t0 =>
        if PLAYER_TIMEOUT < now - t0 then
          let r := cleanupPlayer s k
          if r.2 then (r.1, true) else cleanupSweepLoop now t r.1
        else cleanupSweepLoop now t s

/-- The one-minute background sweep (lines 382-401): evict idle players,
then drop game-session records whose `lastUpdate` is older than
MATCH_EXPIRATION, then recompute the load.  A TypeError in the first phase
aborts the rest. -/
def cleanupSweep (s : ServerState) (now : Nat) : ServerState × Bool :=
  let r := cleanupSweepLoop now (s.gameSessions.map (fun e => e.1)) s
  if r.2 then (r.1, true)
  else
    let s1 := r.1
    let sessions2 := s1.gameSessions.filter (fun e =>
      match e.2 with
      | SessionRec.game g => ¬ MATCH_EXPIRATION < now - g.lastUpdate
      | SessionRec.player _ => true)
    ({ s1 with gameSessions := sessions2,
               serverLoad := min 100 (s1.playersConnected * 2) }, false)

/-! ### Matchmaking background cycle (server.js lines 404-477)

The callback reads a snapshot of `matchmaking/`, filters the entries with
status 'waiting', sorts them with the stable `Array.prototype.sort` under
the comparator `a[1].ping - b[1].ping` (ascending ping; entries of equal
ping keep their snapshot order), and pairs them off the front two at a time
while at least two remain.  The snapshot is modelled as the entry list in
`Object.entries` order; `match-${Date.now()}` match ids are supplied by
`mkMatchId`, indexed by pair number. -/

/-- Stable insertion by ascending ping: an entry goes in front of the first
element whose ping is not smaller, so equal-ping entries keep their original
relative order — the result of the stable JS sort. -/
def insertByPing (e : String × QueueRec) :
    List (String × QueueRec) → List (String × QueueRec)
  | [] => [e]
  | h :: t => if e.2.ping ≤ h.2.ping then e :: h :: t else h :: insertByPing e t

/-- The stable sort by ascending ping (the JS `sort((a, b) => a[1].ping -
b[1].ping)` on the filtered snapshot). -/
def sortByPing : List (String × QueueRec) → List (String × QueueRec)
  | [] => []
  | h :: t => insertByPing h (sortByPing t)

/-- The two shifts per iteration of the while loop: successive front pairs. -/
def pairUp {α : Type} : List α → List (α × α)
  | a :: b :: rest => (a, b) :: pairUp rest
  | _ => []

/-- What the while loop leaves unshifted: nothing, or the trailing single
entry. -/
def pairLeftover {α : Type} : List α → List α
  | _ :: _ :: rest => pairLeftover rest
  | rest => rest

/-- The match player entry the pairing loop writes: `{ status: 'pending',
...player[1] }` — the spread's own `status` field ('waiting' for every
paired entry) overwrites the literal 'pending'. -/
def matchPlayerOfQueue (q : QueueRec) : MatchPlayer :=
  { status := q.status, timestamp := q.timestamp, ping := q.ping, score := q.score }

/-- The proposal written for a player, describing the opponent entry
(lines 434-448). -/
def proposalFor (mid : String) (opp : String × QueueRec) : Proposal :=
  { matchId := mid, opponentId := opp.1, opponentPing := opp.2.ping,
    opponentScore := opp.2.score, status := "proposed" }

/-- The writes of one iteration of the while loop (lines 420-452): create
the match node (overall status 'pending'), write both proposals, and remove
both players from the Firebase queue.  The confirmation-deadline timer armed
at line 455 is modelled separately by `matchExpirationFire`. -/
def applyPair (now : Nat) (db : DB) (mid : String)
    (p1 p2 : String × QueueRec) : DB :=
  let m : MatchRec :=
    { id := mid,
      players := [(p1.1, matchPlayerOfQueue p1.2), (p2.1, matchPlayerOfQueue p2.2)],
      status := "pending", reason := none, rejectedBy := none, createdAt := now }
  { db with
    matchesDb := setA db.matchesDb mid m,
    matchProposals := setA (setA db.matchProposals p1.1 (proposalFor mid p2))
                        p2.1 (proposalFor mid p1),
    matchmaking := removeA (removeA db.matchmaking p1.1) p2.1 }

/-- The pairs one cycle proposes, from the snapshot: filter the waiting
entries, stable-sort by ping, take front pairs. -/
def matchmakingPairs (queue : List (String × QueueRec)) :
    List ((String × QueueRec) × (String × QueueRec)) :=
  pairUp (sortByPing (queue.filter (fun e => e.2.status = "waiting")))

/-- The pairing portion of the matchmaking setInterval callback
(lines 404-477), applied to the database; the trailing staleness cleanup of
lines 479-485 is a separate concern (`queueStalenessCleanup`). -/
def matchmakingCycle (db : DB) (mkMatchId : Nat → String) (now : Nat) : DB :=
  (matchmakingPairs db.matchmaking).enum.foldl
    (fun acc ip => applyPair now acc (mkMatchId ip.1) ip.2.1 ip.2.2) db

/-- The staleness cleanup at the end of the callback (lines 479-485): every
entry of the ORIGINAL snapshot older than PLAYER_TIMEOUT is removed from the
Firebase queue. -/
def queueStalenessCleanup (db : DB) (snapshot : List (String × QueueRec))
    (now : Nat) : DB :=
  snapshot.foldl
    (fun acc e =>
      if PLAYER_TIMEOUT < now - e.2.timestamp then
        { acc with matchmaking := removeA acc.matchmaking e.1 }
      else acc) db

/-- The per-pid body of the requeue loop of the expiration timer
(lines 465-474): when a `players/{pid}` node exists, write the player back
into the queue with status 'waiting'. -/
def requeueOne (prs : List (String × PlayerData)) (now : Nat)
    (q : List (String × QueueRec)) (pid : String) : List (String × QueueRec) :=
  match lookupA prs pid with
  | some pd =>
    setA q pid { ping := pd.ping, score := pd.score, status := "waiting",
                 timestamp := now }
  | none => q

/-- The requeue loop over the captured match snapshot's players. -/
def requeueAll (prs : List (String × PlayerData)) (now : Nat)
    (mp : List (String × MatchPlayer)) (q : List (String × QueueRec)) :
    List (String × QueueRec) :=
  mp.foldl (fun acc pl => requeueOne prs now acc pl.1) q

/-- The confirmation-deadline timer callback (server.js lines 455-476), fired
MATCH_CONFIRMATION_TIMEOUT after the proposal: re-read the match; only when
it still exists with status 'pending', merge `{status: 'cancelled', reason:
'confirmation_timeout'}` into it and re-enqueue every participant of the
captured snapshot whose `players/{pid}` node still exists. -/
def matchExpirationFire (db : DB) (matchId : String) (now : Nat) : DB :=
  match lookupA db.matchesDb matchId with
  | none => db
  | some m =>
    if m.status = "pending" then
      let matches1 :=
        setA db.matchesDb matchId
          { m with status := "cancelled", reason := some "confirmation_timeout" }
      { db with matchesDb := matches1,
                matchmaking := requeueAll db.players now m.players db.matchmaking }
    else db

/-! ### The accept branch at await granularity (for the dual-confirm race)

`/api/matchmaking/confirm` is an async handler: the statements between its
`await`s run atomically, but two in-flight requests interleave at the await
points.  The accept branch splits into three such segments: (0) the
ready-status write, (1) the match read into the local `match` variable,
(2) the conditional activate-and-create.  A schedule is a list of booleans
saying which of the two callers runs its next segment. -/

/-- One in-flight accept call: its player id, program counter, and the local
`match` snapshot read by segment 1. -/
structure ConfirmCaller where
  pid : String
  pc : Nat
  snap : Option MatchRec
deriving DecidableEq, Repr

/-- The state shared by the two calls: the database, the in-memory
`gameSessions` map, and how many times the session-creation block
(lines 195-203) has executed. -/
structure ConfirmRun where
  db : DB
  sessions : List (String × SessionRec)
  creations : Nat
deriving DecidableEq, Repr

/-- One atomic segment of the accept branch. -/
def confirmAcceptStep (matchId : String) (now : Nat) (rnd : RandOracle)
    (rs : ConfirmRun) (c : ConfirmCaller) : ConfirmRun × ConfirmCaller :=
  match c.pc with
  | 0 =>
    ({ rs with db := { rs.db with
         matchesDb := updMatchPlayerReady rs.db.matchesDb matchId c.pid now } },
     { c with pc := 1 })
  | 1 => (rs, { c with pc := 2, snap := lookupA rs.db.matchesDb matchId })
  | 2 =>
    match c.snap with
    | some m =>
      if m.players.all (fun p => p.2.status = "ready") then
        let pids := m.players.map (fun p => p.1)
        let gs : GameSessionRec :=
          { players := pids, startedAt := now, lastUpdate := now,
            lastActivity := none, gameState := initializeGameState pids now rnd }
        ({ db := { rs.db with matchesDb := updMatchStatus rs.db.matchesDb matchId "active" },
           sessions := setA rs.sessions matchId (SessionRec.game gs),
           creations := rs.creations + 1 },
         { c with pc := 3 })
      else (rs, { c with pc := 3 })
    | none => (rs, { c with pc := 3 })
  | _ => (rs, c)

/-- Run two accept calls for players `a` and `b` under a schedule
(`true` = caller `a` runs its next segment). -/
def runConfirm (matchId : String) (now : Nat) (rnd : RandOracle)
    (init : ConfirmRun) (a b : String) (sched : List Bool) : ConfirmRun :=
  (sched.foldl
    (fun st mv =>
      if mv then
        let r := confirmAcceptStep matchId now rnd st.1 st.2.1
        (r.1, r.2, st.2.2)
      else
        let r := confirmAcceptStep matchId now rnd st.1 st.2.2
        (r.1, st.2.1, r.2))
    (init, ⟨a, 0, none⟩, ⟨b, 0, none⟩)).1

/-! ### Heap-level rendering of processGameAction (for copy-on-write)

To talk about object identity — the source mutates only the
`JSON.parse(JSON.stringify(...))` copy and never the state object it was
given — game states are placed in an explicit heap of numbered object
slots.  `processGameActionH` performs exactly the source's steps against
the heap: read the old object, allocate the copy, mutate the copy through
its own reference, and return that reference for the caller to commit.  The
returned trace lists the heap after each mutating step (the observation
points of a concurrent reader). -/

/-- A heap of game-state objects. -/
structure Heap where
  mem : List (Nat × GameState)
  next : Nat

/-- Dereference. -/
def hread (h : Heap) (r : Nat) : Option GameState := lookupA h.mem r

/-- Allocate a fresh object, returning its reference. -/
def halloc (h : Heap) (v : GameState) : Heap × Nat :=
  ({ mem := setA h.mem h.next v, next := h.next + 1 }, h.next)

/-- Mutate the object behind `r` in place. -/
def hmodify (h : Heap) (r : Nat) (f : GameState → GameState) : Heap :=
  match hread h r with
  | some v => { h with mem := setA h.mem r (f v) }
  | none => h

/-- processGameAction against the heap: `r` is the stored state the handler
passes in.  Returns the final heap, the reference to the result object the
handler commits, the events, and the heaps after each step. -/
def processGameActionH (h : Heap) (r : Nat) (playerId : String) (action : Action)
    (now : Nat) : Heap × Nat × List GameEvent × List Heap :=
  match hread h r with
  | none => (h, r, [], [h])
  | some state =>
    match lookupA state.players playerId with
    | none => (h, r, [], [h])
    | some player =>
      let a1 := halloc h (jsonDeepCopy state)
      let h1 := a1.1
      let nr := a1.2
      let h2 :=
        if action.type = "move" then
          hmodify h1 nr (fun st =>
            { st with players := updateA st.players playerId
                                   (fun p => { p with position := action.position }) })
        else h1
      let events :=
        if action.type = "move" then
          [GameEvent.playerMoved playerId action.position]
        else if action.type = "shoot" then
          [GameEvent.projectileFired playerId player.position action.direction now]
        else []
      let h3 := hmodify h2 nr (fun st =>
        { st with players := updateA st.players playerId
                               (fun p => { p with lastAction := now }) })
      let h4 := hmodify h3 nr (fun st => { st with lastUpdate := now })
      (h4, nr, events, [h1, h2, h3, h4])

/-! ### Association-list lemmas -/

/-- Keys are pairwise distinct (a JS object always satisfies this). -/
def nodupKeys {κ α : Type} (l : List (κ × α)) : Prop :=
  (l.map Prod.fst).Nodup

theorem lookupA_setA_self {κ α : Type} [DecidableEq κ] (l : List (κ × α)) (k : κ)
    (v : α) : lookupA (setA l k v) k = some v := by
  induction l with
  | nil => simp [setA, lookupA]
  | cons e t ih =>
    by_cases h : e.1 = k
    · simp [setA, h, lookupA]
    · simp [setA, h, lookupA, ih]

theorem lookupA_setA_ne {κ α : Type} [DecidableEq κ] (l : List (κ × α))
    (k k' : κ) (v : α) (h : k' ≠ k) :
    lookupA (setA l k v) k' = lookupA l k' := by
  induction l with
  | nil =>
    simp only [setA, lookupA]
    rw [if_neg (fun hc => h hc.symm)]
  | cons e t ih =>
    by_cases he : e.1 = k
    · subst he
      simp only [setA, if_pos rfl, lookupA]
      rw [if_neg (fun hc => h hc.symm), if_neg (fun hc => h hc.symm)]
    · simp only [setA, if_neg he, lookupA]
      by_cases he' : e.1 = k'
      · simp [he']
      · simp [he', ih]

theorem lookupA_removeA_ne {κ α : Type} [DecidableEq κ] (l : List (κ × α))
    (k k' : κ) (h : k' ≠ k) :
    lookupA (removeA l k) k' = lookupA l k' := by
  induction l with
  | nil => simp [removeA, lookupA]
  | cons e t ih =>
    by_cases he : e.1 = k
    · have hstep : removeA (e :: t) k = removeA t k := by
        simp [removeA, List.filter_cons, he]
      rw [hstep, ih]
      simp only [lookupA]
      rw [if_neg (fun hc : e.1 = k' => h (by rw [← hc]; exact he))]
    · have hstep : removeA (e :: t) k = e :: removeA t k := by
        simp [removeA, List.filter_cons, he]
      rw [hstep]
      simp only [lookupA]
      rw [ih]

theorem lookupA_updateA_self {κ α : Type} [DecidableEq κ] (l : List (κ × α))
    (k : κ) (f : α → α) :
    lookupA (updateA l k f) k = (lookupA l k).map f := by
  induction l with
  | nil => simp [updateA, lookupA]
  | cons e t ih =>
    by_cases he : e.1 = k
    · simp [updateA, lookupA, he]
    · simp only [updateA, List.map_cons, if_neg he, lookupA]
      simpa [updateA] using ih

theorem lookupA_updateA_ne {κ α : Type} [DecidableEq κ] (l : List (κ × α))
    (k k' : κ) (f : α → α) (h : k' ≠ k) :
    lookupA (updateA l k f) k' = lookupA l k' := by
  induction l with
  | nil => simp [updateA, lookupA]
  | cons e t ih =>
    by_cases he : e.1 = k
    · simp only [updateA, List.map_cons, if_pos he, lookupA]
      rw [if_neg (fun hc : e.1 = k' => h (by rw [← hc]; exact he)),
          if_neg (fun hc : e.1 = k' => h (by rw [← hc]; exact he))]
      simpa [updateA] using ih
    · simp only [updateA, List.map_cons, if_neg he, lookupA]
      by_cases he' : e.1 = k'
      · simp [he']
      · rw [if_neg he', if_neg he']
        simpa [updateA] using ih

theorem lookupA_of_mem_nodup {κ α : Type} [DecidableEq κ] (l : List (κ × α))
    (k : κ) (v : α) (hm : (k, v) ∈ l) (hn : nodupKeys l) :
    lookupA l k = some v := by
  induction l with
  | nil => cases hm
  | cons e t ih =>
    have hn' : e.1 ∉ t.map Prod.fst ∧ (t.map Prod.fst).Nodup := by
      have := hn
      simp only [nodupKeys, List.map_cons, List.nodup_cons] at this
      exact this
    rcases List.mem_cons.mp hm with hm | hm
    · simp [← hm, lookupA]
    · have hk : ¬ e.1 = k := by
        intro he
        apply hn'.1
        rw [he]
        exact List.mem_map_of_mem Prod.fst hm
      simp only [lookupA, if_neg hk]
      exact ih hm hn'.2

theorem keys_setA {κ α : Type} [DecidableEq κ] (l : List (κ × α)) (k : κ) (v : α) :
    (setA l k v).map Prod.fst =
      if k ∈ l.map Prod.fst then l.map Prod.fst else l.map Prod.fst ++ [k] := by
  induction l with
  | nil => simp [setA]
  | cons e t ih =>
    by_cases he : e.1 = k
    · subst he
      simp [setA]
    · have hne : ¬ k = e.1 := fun h => he h.symm
      simp only [setA, if_neg he, List.map_cons, ih, List.mem_cons]
      by_cases hm : k ∈ t.map Prod.fst
      · simp [hm, hne]
      · simp [hm, hne]

theorem nodupKeys_setA {κ α : Type} [DecidableEq κ] (l : List (κ × α)) (k : κ)
    (v : α) (hn : nodupKeys l) : nodupKeys (setA l k v) := by
  unfold nodupKeys at hn ⊢
  rw [keys_setA]
  by_cases hm : k ∈ l.map Prod.fst
  · simpa [hm] using hn
  · rw [if_neg hm, List.nodup_append]
    exact ⟨hn, List.nodup_singleton k, by simpa using hm⟩

theorem countKey_eq_zero_of_not_mem {κ α : Type} [DecidableEq κ]
    (l : List (κ × α)) (k : κ) (h : k ∉ l.map Prod.fst) : countKey l k = 0 := by
  induction l with
  | nil => rfl
  | cons e t ih =>
    have he : ¬ e.1 = k := fun hc => h (by simp [← hc])
    have ht : k ∉ t.map Prod.fst := fun hc => h (by simp [hc])
    simpa [countKey, List.filter_cons, he] using ih ht

theorem countKey_eq_one_of_lookup {κ α : Type} [DecidableEq κ]
    (l : List (κ × α)) (k : κ) (v : α) (hl : lookupA l k = some v)
    (hn : nodupKeys l) : countKey l k = 1 := by
  induction l with
  | nil => simp [lookupA] at hl
  | cons e t ih =>
    by_cases he : e.1 = k
    · have hk : k ∉ t.map Prod.fst := by
        have := (List.nodup_cons.mp hn).1
        simpa [he] using this
      have h0 : countKey t k = 0 := countKey_eq_zero_of_not_mem t k hk
      simpa [countKey, List.filter_cons, he] using h0
    · simp only [lookupA, if_neg he] at hl
      have := ih hl (List.nodup_cons.mp hn).2
      simpa [countKey, List.filter_cons, he] using this

/-! ### Sorting and pairing lemmas -/

/-- The pairing priority relation: ascending ping. -/
def pingLE (a b : String × QueueRec) : Prop := a.2.ping ≤ b.2.ping

theorem mem_insertByPing (e x : String × QueueRec)
    (l : List (String × QueueRec)) :
    x ∈ insertByPing e l ↔ x = e ∨ x ∈ l := by
  induction l with
  | nil => simp [insertByPing]
  | cons h t ih =>
    by_cases hc : e.2.ping ≤ h.2.ping
    · simp [insertByPing, hc]
    · simp only [insertByPing, if_neg hc, List.mem_cons, ih]
      tauto

theorem perm_insertByPing (e : String × QueueRec) (l : List (String × QueueRec)) :
    List.Perm (insertByPing e l) (e :: l) := by
  induction l with
  | nil => simp [insertByPing]
  | cons h t ih =>
    by_cases hc : e.2.ping ≤ h.2.ping
    · simp [insertByPing, hc]
    · simp only [insertByPing, if_neg hc]
      exact List.Perm.trans (List.Perm.cons h ih) (List.Perm.swap e h t)

theorem sortByPing_perm (l : List (String × QueueRec)) :
    List.Perm (sortByPing l) l := by
  induction l with
  | nil => simp [sortByPing]
  | cons h t ih =>
    exact List.Perm.trans (perm_insertByPing h (sortByPing t)) (List.Perm.cons h ih)

theorem sorted_insertByPing (e : String × QueueRec) (l : List (String × QueueRec))
    (h : l.Pairwise pingLE) : (insertByPing e l).Pairwise pingLE := by
  induction l with
  | nil => simp [insertByPing, pingLE]
  | cons hd t ih =>
    rcases List.pairwise_cons.mp h with ⟨hhd, ht⟩
    by_cases hc : e.2.ping ≤ hd.2.ping
    · simp only [insertByPing, if_pos hc]
      refine List.pairwise_cons.mpr ⟨?_, h⟩
      intro x hx
      rcases List.mem_cons.mp hx with hx | hx
      · subst hx; exact hc
      · exact le_trans hc (hhd x hx)
    · simp only [insertByPing, if_neg hc]
      refine List.pairwise_cons.mpr ⟨?_, ih ht⟩
      intro x hx
      rcases (mem_insertByPing e x t).mp hx with hx | hx
      · subst hx
        exact le_of_not_le hc
      · exact hhd x hx

theorem sortByPing_sorted (l : List (String × QueueRec)) :
    (sortByPing l).Pairwise pingLE := by
  induction l with
  | nil => simp [sortByPing]
  | cons h t ih => exact sorted_insertByPing h (sortByPing t) ih

theorem filter_insertByPing (e : String × QueueRec) (l : List (String × QueueRec))
    (c : Int) :
    (insertByPing e l).filter (fun x => x.2.ping = c) =
      if e.2.ping = c then e :: l.filter (fun x => x.2.ping = c)
      else l.filter (fun x => x.2.ping = c) := by
  induction l with
  | nil =>
    by_cases hec : e.2.ping = c
    · simp [insertByPing, hec]
    · simp [insertByPing, hec]
  | cons h t ih =>
    by_cases hc : e.2.ping ≤ h.2.ping
    · rw [show insertByPing e (h :: t) = e :: h :: t by
        simp [insertByPing, hc]]
      by_cases hec : e.2.ping = c
      · simp [List.filter_cons, hec]
      · simp [List.filter_cons, hec]
    · rw [show insertByPing e (h :: t) = h :: insertByPing e t by
        simp [insertByPing, hc]]
      have hlt : h.2.ping < e.2.ping := lt_of_not_le hc
      by_cases hhc : h.2.ping = c
      · have hec : ¬ e.2.ping = c := by
          intro hec
          rw [hec] at hlt
          rw [hhc] at hlt
          exact lt_irrefl c hlt
        simp [List.filter_cons, hhc, hec, ih]
      · simp [List.filter_cons, hhc, ih]

/-- Stability of the pairing sort: inside each latency class the snapshot
order is preserved. -/
theorem sortByPing_stable (l : List (String × QueueRec)) (c : Int) :
    (sortByPing l).filter (fun x => x.2.ping = c) =
      l.filter (fun x => x.2.ping = c) := by
  induction l with
  | nil => simp [sortByPing]
  | cons h t ih =>
    by_cases hhc : h.2.ping = c
    · simp [sortByPing, filter_insertByPing, hhc, List.filter_cons, ih]
    · simp [sortByPing, filter_insertByPing, hhc, List.filter_cons, ih]

/-- The entries consumed by the pairing while loop, in order. -/
def pairFlat {α : Type} : List (α × α) → List α
  | [] => []
  | p :: t => p.1 :: p.2 :: pairFlat t

theorem pairUp_decomp {α : Type} : ∀ l : List α,
    pairFlat (pairUp l) ++ pairLeftover l = l
  | [] => by simp [pairUp, pairLeftover, pairFlat]
  | [x] => by simp [pairUp, pairLeftover, pairFlat]
  | a :: b :: rest => by
    simp only [pairUp, pairLeftover, pairFlat, List.cons_append]
    rw [pairUp_decomp rest]

/-- The player ids the cycle removes from the queue. -/
def pairedIds (ps : List ((String × QueueRec) × (String × QueueRec))) :
    List String :=
  (pairFlat ps).map Prod.fst

theorem cycle_fold_matchmaking (mk : Nat → String) (now : Nat) :
    ∀ (ps : List ((String × QueueRec) × (String × QueueRec))) (n : Nat) (db : DB),
      ((List.enumFrom n ps).foldl
          (fun acc ip => applyPair now acc (mk ip.1) ip.2.1 ip.2.2) db).matchmaking
        = ps.foldl (fun q pr => removeA (removeA q pr.1.1) pr.2.1) db.matchmaking
  | [], _, _ => rfl
  | p :: t, n, db => by
    simp only [List.enumFrom, List.foldl]
    rw [cycle_fold_matchmaking mk now t (n + 1) (applyPair now db (mk n) p.1 p.2)]
    rfl

theorem lookup_removePairs (ps : List ((String × QueueRec) × (String × QueueRec)))
    (k : String) (h : k ∉ pairedIds ps) :
    ∀ q : List (String × QueueRec),
      lookupA (ps.foldl (fun q pr => removeA (removeA q pr.1.1) pr.2.1) q) k
        = lookupA q k := by
  induction ps with
  | nil => intro q; rfl
  | cons p t ih =>
    intro q
    have h1 : ¬ k = p.1.1 := by
      intro hc
      exact h (by simp [pairedIds, pairFlat, hc])
    have h2 : ¬ k = p.2.1 := by
      intro hc
      exact h (by simp [pairedIds, pairFlat, hc])
    have ht : k ∉ pairedIds t := by
      intro hc
      apply h
      simp only [pairedIds, pairFlat, List.map_cons, List.mem_cons]
      right; right
      simpa [pairedIds] using hc
    simp only [List.foldl]
    rw [ih ht, lookupA_removeA_ne _ _ _ h2, lookupA_removeA_ne _ _ _ h1]

/-! ### Requeue-loop lemmas (expiration timer) -/

theorem requeueAll_lookup_not_mem (prs : List (String × PlayerData)) (now : Nat)
    (mp : List (String × MatchPlayer)) (pid : String)
    (h : pid ∉ mp.map Prod.fst) :
    ∀ q, lookupA (requeueAll prs now mp q) pid = lookupA q pid := by
  induction mp with
  | nil => intro q; rfl
  | cons pl t ih =>
    intro q
    have h1 : ¬ pid = pl.1 := fun hc => h (by simp [hc])
    have ht : pid ∉ t.map Prod.fst := fun hc => h (by simp [hc])
    simp only [requeueAll, List.foldl]
    have hstep : lookupA (requeueOne prs now q pl.1) pid = lookupA q pid := by
      unfold requeueOne
      cases lookupA prs pl.1 with
      | none => rfl
      | some pd => exact lookupA_setA_ne _ _ _ _ h1
    rw [show (List.foldl (fun acc pl => requeueOne prs now acc pl.1) (requeueOne prs now q pl.1) t)
          = requeueAll prs now t (requeueOne prs now q pl.1) from rfl]
    rw [ih ht (requeueOne prs now q pl.1), hstep]

theorem requeueAll_lookup_some (prs : List (String × PlayerData)) (now : Nat)
    (mp : List (String × MatchPlayer)) (pid : String) (pd : PlayerData)
    (hmem : pid ∈ mp.map Prod.fst) (hp : lookupA prs pid = some pd) :
    ∀ q, lookupA (requeueAll prs now mp q) pid =
      some { ping := pd.ping, score := pd.score, status := "waiting",
             timestamp := now } := by
  induction mp with
  | nil => simp at hmem
  | cons pl t ih =>
    intro q
    simp only [requeueAll, List.foldl]
    rw [show (List.foldl (fun acc pl => requeueOne prs now acc pl.1) (requeueOne prs now q pl.1) t)
          = requeueAll prs now t (requeueOne prs now q pl.1) from rfl]
    by_cases hmt : pid ∈ t.map Prod.fst
    · exact ih hmt _
    · have hhd : pl.1 = pid := by
        have hmem' : pid ∈ pl.1 :: t.map Prod.fst := by
          simpa only [List.map_cons] using hmem
        rcases List.mem_cons.mp hmem' with h | h
        · exact h.symm
        · exact absurd h hmt
      rw [requeueAll_lookup_not_mem prs now t pid hmt]
      unfold requeueOne
      rw [hhd, hp]
      exact lookupA_setA_self _ _ _

theorem requeueAll_lookup_players_none (prs : List (String × PlayerData))
    (now : Nat) (mp : List (String × MatchPlayer)) (pid : String)
    (hp : lookupA prs pid = none) :
    ∀ q, lookupA (requeueAll prs now mp q) pid = lookupA q pid := by
  induction mp with
  | nil => intro q; rfl
  | cons pl t ih =>
    intro q
    simp only [requeueAll, List.foldl]
    rw [show (List.foldl (fun acc pl => requeueOne prs now acc pl.1) (requeueOne prs now q pl.1) t)
          = requeueAll prs now t (requeueOne prs now q pl.1) from rfl]
    rw [ih _]
    unfold requeueOne
    by_cases hhd : pl.1 = pid
    · rw [hhd, hp]
    · cases hpl : lookupA prs pl.1 with
      | none => rfl
      | some pd => exact lookupA_setA_ne _ _ _ _ (fun hc => hhd hc.symm)

theorem requeueAll_nodup (prs : List (String × PlayerData)) (now : Nat)
    (mp : List (String × MatchPlayer)) :
    ∀ q, nodupKeys q → nodupKeys (requeueAll prs now mp q) := by
  induction mp with
  | nil => intro q hq; exact hq
  | cons pl t ih =>
    intro q hq
    simp only [requeueAll, List.foldl]
    rw [show (List.foldl (fun acc pl => requeueOne prs now acc pl.1) (requeueOne prs now q pl.1) t)
          = requeueAll prs now t (requeueOne prs now q pl.1) from rfl]
    apply ih
    unfold requeueOne
    cases lookupA prs pl.1 with
    | none => exact hq
    | some pd => exact nodupKeys_setA _ _ _ hq

/-! ### Concrete fixtures -/

/-- A fixed randomness oracle for concrete runs. -/
def rnd0 : RandOracle :=
  { pos := fun _ => { x := 0, y := 0 },
    terrain := { width := 1600, height := 1200, obstacles := [] } }

/-- A waiting match-player entry as the pairing loop writes it. -/
def mpWaiting (ts : Nat) (ping score : Int) : MatchPlayer :=
  { status := "waiting", timestamp := ts, ping := ping, score := score }

/-- A database holding one freshly proposed (status 'pending') match `m`
between connected players A and B, both with `players/` nodes. -/
def dbC1 : DB :=
  { matchmaking := [],
    matchProposals :=
      [("A", { matchId := "m", opponentId := "B", opponentPing := 5,
               opponentScore := 0, status := "proposed" }),
       ("B", { matchId := "m", opponentId := "A", opponentPing := 4,
               opponentScore := 0, status := "proposed" })],
    matchesDb :=
      [("m", { id := "m",
               players := [("A", mpWaiting 1 4 0), ("B", mpWaiting 2 5 0)],
               status := "pending", reason := none, rejectedBy := none,
               createdAt := 3 })],
    players := [("A", { ping := 4, score := 0 }), ("B", { ping := 5, score := 0 })] }

/-! ### C1 — the reject path -/

/-- C1 counterexample.  On the proposed match `m` of `dbC1` with both
participants connected, `confirm("m", "A", accept=false)` writes reason
`'rejected'` (not `rejected_by_player`), re-enqueues the REJECTING player A,
and does not re-enqueue the other player B — the opposite of the claimed
requeue behavior on both players. -/
theorem c1_reject_counterexample :
    ((lookupA (confirmReject dbC1 "A" "m" 7).1.matchesDb "m").map
        (fun m => m.reason) = some (some "rejected"))
    ∧ ((lookupA (confirmReject dbC1 "A" "m" 7).1.matchesDb "m").map
        (fun m => m.reason) ≠ some (some "rejected_by_player"))
    ∧ lookupA (confirmReject dbC1 "A" "m" 7).1.matchmaking "A"
        = some { ping := 4, score := 0, status := "waiting", timestamp := 7 }
    ∧ lookupA (confirmReject dbC1 "A" "m" 7).1.matchmaking "B" = none := by
  decide

/-- C1 (amended): for every existing match, `confirm(matchId, playerA,
accept=false)` transitions the match to `cancelled` with reason `rejected`
and `rejectedBy = playerA`, removes playerA's own proposal, re-enqueues the
REJECTING player playerA with status 'waiting' when `players/playerA`
exists (and leaves the queue untouched when it does not), and never touches
the other participant's queue entry. -/
theorem c1_reject_behavior (db : DB) (a mid : String) (now : Nat) (m : MatchRec)
    (hm : lookupA db.matchesDb mid = some m) :
    (lookupA (confirmReject db a mid now).1.matchesDb mid =
       some { m with status := "cancelled", reason := some "rejected",
                     rejectedBy := some a })
    ∧ (confirmReject db a mid now).1.matchProposals = removeA db.matchProposals a
    ∧ (∀ pd, lookupA db.players a = some pd →
         lookupA (confirmReject db a mid now).1.matchmaking a =
           some { ping := pd.ping, score := pd.score, status := "waiting",
                  timestamp := now })
    ∧ (lookupA db.players a = none →
         (confirmReject db a mid now).1.matchmaking = db.matchmaking)
    ∧ (∀ b, b ≠ a →
         lookupA (confirmReject db a mid now).1.matchmaking b
           = lookupA db.matchmaking b) := by
  cases hpl : lookupA db.players a with
  | none =>
    have hred : confirmReject db a mid now =
        ({ db with
            matchesDb := setA db.matchesDb mid
              { m with status := "cancelled", reason := some "rejected",
                       rejectedBy := some a },
            matchProposals := removeA db.matchProposals a },
         { code := 200, status := "rejected" }) := by
      simp only [confirmReject, hm, hpl]
    rw [hred]
    refine ⟨lookupA_setA_self _ _ _, rfl, ?_, fun _ => rfl, fun b _ => rfl⟩
    intro pd hpd
    exact Option.noConfusion hpd
  | some pd =>
    have hred : confirmReject db a mid now =
        ({ db with
            matchesDb := setA db.matchesDb mid
              { m with status := "cancelled", reason := some "rejected",
                       rejectedBy := some a },
            matchProposals := removeA db.matchProposals a,
            matchmaking := setA db.matchmaking a
              { ping := pd.ping, score := pd.score, status := "waiting",
                timestamp := now } },
         { code := 200, status := "rejected" }) := by
      simp only [confirmReject, hm, hpl]
    rw [hred]
    refine ⟨lookupA_setA_self _ _ _, rfl, ?_, ?_, ?_⟩
    · intro pd' hpd'
      injection hpd' with hpd'
      subst hpd'
      exact lookupA_setA_self _ _ _
    · intro hnone
      exact Option.noConfusion hnone
    · intro b hb
      exact lookupA_setA_ne _ _ _ _ hb

/-- C1 witness: the amended reject behavior evaluated on `dbC1`. -/
theorem c1_reject_behavior_witness :
    (lookupA (confirmReject dbC1 "A" "m" 7).1.matchesDb "m" =
       some { id := "m",
              players := [("A", mpWaiting 1 4 0), ("B", mpWaiting 2 5 0)],
              status := "cancelled", reason := some "rejected",
              rejectedBy := some "A", createdAt := 3 })
    ∧ lookupA (confirmReject dbC1 "A" "m" 7).1.matchmaking "B"
        = lookupA dbC1.matchmaking "B" := by
  have h := c1_reject_behavior dbC1 "A" "m" 7
    { id := "m", players := [("A", mpWaiting 1 4 0), ("B", mpWaiting 2 5 0)],
      status := "pending", reason := none, rejectedBy := none, createdAt := 3 }
    (by decide)
  exact ⟨h.1, h.2.2.2.2 "B" (by decide)⟩

/-! ### C2 — unknown action kinds -/

/-- An empty terrain for fixtures. -/
def terrain0 : Terrain := { width := 1600, height := 1200, obstacles := [] }

/-- A game state with one player P at (3, 4). -/
def stateC2 : GameState :=
  { players := [("P", { position := { x := 3, y := 4 }, health := 100,
                        score := 0, lastAction := 0 })],
    objects := [], terrain := terrain0, startTime := 0, lastUpdate := 0 }

/-- An action whose type is none of the known kinds. -/
def actionC2 : Action := { type := "teleport", position := { x := 9, y := 9 },
                           direction := 0 }

/-- In-memory state holding the game session `m` for `stateC2`. -/
def sC2 : ServerState :=
  { playersConnected := 1, serverLoad := 5, lastPing := 0,
    gameSessions := [("m", SessionRec.game
      { players := ["P"], startedAt := 0, lastUpdate := 0, lastActivity := none,
        gameState := stateC2 })],
    matchmakingQueue := [] }

/-- C2 counterexample.  The unknown action kind `teleport` does not leave the
state unchanged (the player's `lastAction` and the state's `lastUpdate` are
stamped), and no `UnsupportedAction` error reaches the caller: the handler
answers 200/`processed` with an empty event list. -/
theorem c2_unknown_action_counterexample :
    (processGameAction stateC2 "P" actionC2 5).newState ≠ stateC2
    ∧ (apiGameAction sC2 "m" "P" actionC2 5).2.code = 200
    ∧ (apiGameAction sC2 "m" "P" actionC2 5).2.status = "processed"
    ∧ (apiGameAction sC2 "m" "P" actionC2 5).2.events = [] := by
  decide

/-- C2 (amended): an action whose type is not `move`, `shoot` or `ability`
is silently ignored — no events, no error (the handler reports
200/`processed`), and the only state change is the stamping of the acting
player's `lastAction` and the state's `lastUpdate` with the current time. -/
theorem c2_unknown_action_behavior (state : GameState) (pid : String)
    (action : Action) (now : Nat) (p : PlayerState)
    (hp : lookupA state.players pid = some p)
    (h1 : action.type ≠ "move") (h2 : action.type ≠ "shoot")
    (h3 : action.type ≠ "ability") :
    (processGameAction state pid action now).events = []
    ∧ (processGameAction state pid action now).newState =
        { state with
          players := updateA state.players pid (fun q => { q with lastAction := now }),
          lastUpdate := now }
    ∧ (∀ (s : ServerState) (mid : String) (g : GameSessionRec),
         lookupA s.gameSessions mid = some (SessionRec.game g) →
         pid ∈ g.players →
         (apiGameAction s mid pid action now).2.code = 200
         ∧ (apiGameAction s mid pid action now).2.status = "processed"
         ∧ (apiGameAction s mid pid action now).2.events = []) := by
  have hproc : processGameAction state pid action now =
      { newState :=
          { state with
            players := updateA state.players pid (fun q => { q with lastAction := now }),
            lastUpdate := now },
        events := [] } := by
    unfold processGameAction jsonDeepCopy
    rw [hp]
    simp [h1, h2, h3]
  have hev : ∀ st : GameState, (processGameAction st pid action now).events = [] := by
    intro st
    unfold processGameAction
    cases lookupA st.players pid with
    | none => rfl
    | some q => simp [h1, h2, h3, jsonDeepCopy]
  refine ⟨by rw [hproc], by rw [hproc], ?_⟩
  intro s mid g hg hmem
  have hapi : apiGameAction s mid pid action now =
      ({ s with
           gameSessions :=
             setA s.gameSessions mid
               (SessionRec.game
                 { g with
                     gameState :=
                       (processGameAction g.gameState pid action now).newState,
                     lastUpdate := now }) },
       { code := 200, status := "processed",
         events := (processGameAction g.gameState pid action now).events }) := by
    simp only [apiGameAction, hg, if_pos hmem]
  rw [hapi]
  exact ⟨rfl, rfl, hev g.gameState⟩

/-- C2 witness: the amended behavior evaluated on `stateC2` / `sC2`. -/
theorem c2_unknown_action_behavior_witness :
    (processGameAction stateC2 "P" actionC2 5).events = []
    ∧ (apiGameAction sC2 "m" "P" actionC2 5).2.status = "processed" := by
  have h := c2_unknown_action_behavior stateC2 "P" actionC2 5
    { position := { x := 3, y := 4 }, health := 100, score := 0, lastAction := 0 }
    (by decide) (by decide) (by decide) (by decide)
  refine ⟨h.1, ?_⟩
  exact (h.2.2 sC2 "m"
    { players := ["P"], startedAt := 0, lastUpdate := 0, lastActivity := none,
      gameState := stateC2 } (by decide) (by decide)).2.1

/-! ### C4 — confirm performs no validation -/

/-- A ready match-player entry. -/
def mpReady (ts : Nat) : MatchPlayer :=
  { status := "ready", timestamp := ts, ping := 0, score := 0 }

/-- A database whose match `m` is already active (a terminal, non-proposed
state) between A and B. -/
def dbC4 : DB :=
  { matchmaking := [], matchProposals := [],
    matchesDb :=
      [("m", { id := "m", players := [("A", mpReady 1), ("B", mpReady 2)],
               status := "active", reason := none, rejectedBy := none,
               createdAt := 0 })],
    players := [] }

/-- An empty in-memory state. -/
def sC4 : ServerState :=
  { playersConnected := 0, serverLoad := 0, lastPing := 0, gameSessions := [],
    matchmakingQueue := [] }

/-- C4 counterexample.  `confirm("m", "C", accept=true)` on the active match
`m` — the match is not in proposed state AND "C" is not a participant — does
not fail with NotFound (the response is 200) and it modifies the match
state. -/
theorem c4_counterexample :
    (confirmAccept sC4 dbC4 "C" "m" 9 rnd0).2.2.code = 200
    ∧ (confirmAccept sC4 dbC4 "C" "m" 9 rnd0).2.2.code ≠ 404
    ∧ (confirmAccept sC4 dbC4 "C" "m" 9 rnd0).2.1 ≠ dbC4 := by
  decide

/-- C4 (amended): confirm performs no validation whatsoever.  For every
existing match — in any state — and every playerId, accept=true answers 200
and records a 'ready' player entry for the caller inside the match (adding
the caller as a listed player when absent), and accept=false answers 200 and
cancels the match; NotFound is never produced. -/
theorem c4_no_validation (s : ServerState) (db : DB) (pid mid : String)
    (now : Nat) (rnd : RandOracle) (m : MatchRec)
    (hm : lookupA db.matchesDb mid = some m) :
    (confirmAccept s db pid mid now rnd).2.2.code = 200
    ∧ (∃ m', lookupA (confirmAccept s db pid mid now rnd).2.1.matchesDb mid = some m'
          ∧ (lookupA m'.players pid).map (fun p => p.status) = some "ready")
    ∧ (confirmReject db pid mid now).2.code = 200
    ∧ ((lookupA (confirmReject db pid mid now).1.matchesDb mid).map
         (fun m' => m'.status) = some "cancelled") := by
  have hpnew : ∃ pnew : MatchPlayer, pnew.status = "ready" ∧
      updMatchPlayerReady db.matchesDb mid pid now =
        setA db.matchesDb mid { m with players := setA m.players pid pnew } := by
    simp only [updMatchPlayerReady, hm]
    cases hpp : lookupA m.players pid with
    | none => exact ⟨_, rfl, rfl⟩
    | some p => exact ⟨_, rfl, rfl⟩
  obtain ⟨pnew, hps, hupd⟩ := hpnew
  have hlook : lookupA (updMatchPlayerReady db.matchesDb mid pid now) mid
      = some { m with players := setA m.players pid pnew } := by
    rw [hupd]
    exact lookupA_setA_self _ _ _
  refine ⟨?_, ?_, ?_, ?_⟩
  · simp only [confirmAccept, hlook]
    split
    · rfl
    · rfl
  · simp only [confirmAccept, hlook]
    split
    · have hst : updMatchStatus (updMatchPlayerReady db.matchesDb mid pid now)
          mid "active"
          = setA (updMatchPlayerReady db.matchesDb mid pid now) mid
              { m with players := setA m.players pid pnew, status := "active" } := by
        simp only [updMatchStatus, hlook]
      refine ⟨{ m with players := setA m.players pid pnew, status := "active" },
        ?_, ?_⟩
      · rw [hst]
        exact lookupA_setA_self _ _ _
      · rw [lookupA_setA_self]
        simp [hps]
    · refine ⟨{ m with players := setA m.players pid pnew }, hlook, ?_⟩
      rw [lookupA_setA_self]
      simp [hps]
  · simp only [confirmReject, hm]
    cases hpl : lookupA db.players pid with
    | none => simp only [hpl]
    | some pd => simp only [hpl]
  · simp only [confirmReject, hm]
    cases hpl : lookupA db.players pid with
    | none =>
      simp only [hpl]
      rw [lookupA_setA_self]
      rfl
    | some pd =>
      simp only [hpl]
      rw [lookupA_setA_self]
      rfl

/-- C4 witness: the amended no-validation behavior evaluated on `dbC4`. -/
theorem c4_no_validation_witness :
    (confirmAccept sC4 dbC4 "C" "m" 9 rnd0).2.2.code = 200
    ∧ (confirmReject dbC4 "C" "m" 9).2.code = 200 := by
  have h := c4_no_validation sC4 dbC4 "C" "m" 9 rnd0
    { id := "m", players := [("A", mpReady 1), ("B", mpReady 2)],
      status := "active", reason := none, rejectedBy := none, createdAt := 0 }
    (by decide)
  exact ⟨h.1, h.2.2.1⟩

/-! ### C3 — dual confirm and the creation race -/

/-- A database holding the freshly proposed match `m` between A and B,
both pending (status 'waiting', as the pairing loop writes). -/
def dbC3 : DB :=
  { matchmaking := [], matchProposals := [],
    matchesDb :=
      [("m", { id := "m",
               players := [("A", mpWaiting 1 4 0), ("B", mpWaiting 2 5 0)],
               status := "pending", reason := none, rejectedBy := none,
               createdAt := 0 })],
    players := [] }

/-- The shared state at the start of the dual confirm. -/
def runC3 : ConfirmRun := { db := dbC3, sessions := [], creations := 0 }

/-- Both calls interleaved at every await point. -/
def schedInterleaved : List Bool := [true, false, true, false, true, false]

/-- Caller A's segments all run before caller B's. -/
def schedSequentialAB : List Bool := [true, true, true, false, false, false]

/-- C3 counterexample.  When the two accepting confirm calls interleave at
their await points — both ready-writes land before either re-reads the
match — BOTH handlers see every player ready and BOTH execute the
activate-and-create block: the session-creation statement runs twice (the
second write overwriting the first with a freshly initialized state), not
exactly once.  Sequentially the block runs once. -/
theorem c3_dual_confirm_counterexample :
    (runConfirm "m" 5 rnd0 runC3 "A" "B" schedInterleaved).creations = 2
    ∧ (runConfirm "m" 5 rnd0 runC3 "A" "B" schedSequentialAB).creations = 1 := by
  decide

/-- C3 (amended): when the two accepting confirm calls run sequentially
(no interleaving), exactly one GameSession is created for the match: the
first call's handler leaves `gameSessions` untouched (its re-read still sees
the other player unready), and the second call's handler performs the single
creation and activates the match. -/
theorem c3_sequential_exactly_once (s : ServerState) (db : DB) (mid a b : String)
    (now1 now2 : Nat) (rnd : RandOracle) (m : MatchRec) (pa pb : MatchPlayer)
    (hm : lookupA db.matchesDb mid = some m)
    (hp : m.players = [(a, pa), (b, pb)])
    (hab : a ≠ b)
    (hpb : pb.status ≠ "ready") :
    (confirmAccept s db a mid now1 rnd).1.gameSessions = s.gameSessions
    ∧ (lookupA (confirmAccept (confirmAccept s db a mid now1 rnd).1
         (confirmAccept s db a mid now1 rnd).2.1 b mid now2 rnd).1.gameSessions
         mid).isSome
    ∧ ((lookupA (confirmAccept (confirmAccept s db a mid now1 rnd).1
         (confirmAccept s db a mid now1 rnd).2.1 b mid now2 rnd).2.1.matchesDb
          mid).map (fun mr => mr.status) = some "active") := by
  have hupdA : updMatchPlayerReady db.matchesDb mid a now1 =
      setA db.matchesDb mid
        { m with players :=
            [(a, { pa with status := "ready", timestamp := now1 }), (b, pb)] } := by
    simp only [updMatchPlayerReady, hm, hp]
    simp [lookupA, setA]
  have hlookA : lookupA (setA db.matchesDb mid
      { m with players :=
          [(a, { pa with status := "ready", timestamp := now1 }), (b, pb)] }) mid
      = some { m with players :=
          [(a, { pa with status := "ready", timestamp := now1 }), (b, pb)] } :=
    lookupA_setA_self _ _ _
  have hallA : (List.all
      [(a, { pa with status := "ready", timestamp := now1 }), (b, pb)]
      (fun p => p.2.status = "ready")) = false := by
    simp [decide_eq_false hpb]
  have hA : confirmAccept s db a mid now1 rnd =
      (s,
       { db with
           matchesDb :=
             setA db.matchesDb mid
               { m with
                   players :=
                     [(a, { pa with status := "ready", timestamp := now1 }),
                      (b, pb)] } },
       { code := 200, status := "confirmed" }) := by
    simp only [confirmAccept, hupdA, hlookA, hallA, Bool.false_eq_true, if_false]
  have hupdB : updMatchPlayerReady
      (setA db.matchesDb mid
        { m with players :=
            [(a, { pa with status := "ready", timestamp := now1 }), (b, pb)] })
      mid b now2 =
      setA (setA db.matchesDb mid
        { m with players :=
            [(a, { pa with status := "ready", timestamp := now1 }), (b, pb)] })
        mid
        { m with players :=
            [(a, { pa with status := "ready", timestamp := now1 }),
             (b, { pb with status := "ready", timestamp := now2 })] } := by
    simp only [updMatchPlayerReady, hlookA]
    simp [lookupA, setA, hab]
  have hlookB : lookupA (setA (setA db.matchesDb mid
      { m with players :=
          [(a, { pa with status := "ready", timestamp := now1 }), (b, pb)] })
      mid
      { m with players :=
          [(a, { pa with status := "ready", timestamp := now1 }),
           (b, { pb with status := "ready", timestamp := now2 })] }) mid
      = some { m with players :=
          [(a, { pa with status := "ready", timestamp := now1 }),
           (b, { pb with status := "ready", timestamp := now2 })] } :=
    lookupA_setA_self _ _ _
  rw [hA]
  refine ⟨rfl, ?_, ?_⟩
  · simp only [confirmAccept, hupdB, hlookB]
    simp [lookupA_setA_self]
  · simp only [confirmAccept, hupdB, hlookB]
    simp only [updMatchStatus, hlookB]
    simp [lookupA_setA_self]

/-- C3 witness: the sequential exactly-once behavior evaluated on `dbC3`. -/
theorem c3_sequential_exactly_once_witness :
    (confirmAccept sC4 dbC3 "A" "m" 5 rnd0).1.gameSessions = sC4.gameSessions
    ∧ (lookupA (confirmAccept (confirmAccept sC4 dbC3 "A" "m" 5 rnd0).1
         (confirmAccept sC4 dbC3 "A" "m" 5 rnd0).2.1 "B" "m" 6 rnd0).1.gameSessions
         "m").isSome := by
  have h := c3_sequential_exactly_once sC4 dbC3 "m" "A" "B" 5 6 rnd0
    { id := "m", players := [("A", mpWaiting 1 4 0), ("B", mpWaiting 2 5 0)],
      status := "pending", reason := none, rejectedBy := none, createdAt := 0 }
    (mpWaiting 1 4 0) (mpWaiting 2 5 0)
    (by decide) (by decide) (by decide) (by decide)
  exact ⟨h.1, h.2.1⟩

/-! ### C5 — the pairing ordering and tie-break -/

/-- Ordering stated by the spec's words (§4.2): ascending ping with ties
broken by ascending enqueue timestamp.  Stated from the spec, NOT from the
source, purely for comparison against the source's `sortByPing`. -/
def specTieBreakInsert (e : String × QueueRec) :
    List (String × QueueRec) → List (String × QueueRec)
  | [] => [e]
  | h :: t =>
    if e.2.ping < h.2.ping ∨ (e.2.ping = h.2.ping ∧ e.2.timestamp ≤ h.2.timestamp)
    then e :: h :: t
    else h :: specTieBreakInsert e t

/-- The spec-described ordering of a snapshot (ping ascending, ties by
enqueuedAt ascending). -/
def specPairingOrder : List (String × QueueRec) → List (String × QueueRec)
  | [] => []
  | h :: t => specTieBreakInsert h (specPairingOrder t)

/-- A waiting queue node. -/
def qw (ping : Int) (ts : Nat) : QueueRec :=
  { ping := ping, score := 0, status := "waiting", timestamp := ts }

/-- A snapshot of three equal-ping entries whose key order (A, B, C) differs
from their enqueue order (B, C, A). -/
def snapC5 : List (String × QueueRec) := [("A", qw 5 10), ("B", qw 5 1), ("C", qw 5 2)]

/-- C5 counterexample.  On `snapC5` the source's stable sort keeps the
snapshot order A, B, C (pairing A with B and leaving C), while the claimed
enqueuedAt tie-break orders B, C, A (pairing B with C and leaving A): the
cycle does not break latency ties by enqueue timestamp. -/
theorem c5_tie_break_counterexample :
    sortByPing (snapC5.filter (fun e => e.2.status = "waiting"))
      ≠ specPairingOrder (snapC5.filter (fun e => e.2.status = "waiting"))
    ∧ (matchmakingPairs snapC5).map (fun pr => (pr.1.1, pr.2.1)) = [("A", "B")]
    ∧ (pairUp (specPairingOrder (snapC5.filter
        (fun e => e.2.status = "waiting")))).map (fun pr => (pr.1.1, pr.2.1))
        = [("B", "C")] := by
  decide

/-- C5 (amended): the pairing cycle filters the waiting entries of the
snapshot and stable-sorts them by ascending ping, ties keeping SNAPSHOT
order (not enqueuedAt order); it then repeatedly pairs the two
lowest-latency entries while at least two remain, and the trailing single
entry, if any, keeps its queue node untouched.  Because the cycle is a
function of the snapshot, the pairing is deterministic. -/
theorem c5_pairing_cycle (db : DB) (mk : Nat → String) (now : Nat)
    (hn : nodupKeys db.matchmaking) :
    ((sortByPing (db.matchmaking.filter
        (fun e => e.2.status = "waiting"))).Pairwise pingLE)
    ∧ List.Perm (sortByPing (db.matchmaking.filter (fun e => e.2.status = "waiting")))
        (db.matchmaking.filter (fun e => e.2.status = "waiting"))
    ∧ (∀ c : Int,
        (sortByPing (db.matchmaking.filter
            (fun e => e.2.status = "waiting"))).filter (fun x => x.2.ping = c)
          = (db.matchmaking.filter (fun e => e.2.status = "waiting")).filter
              (fun x => x.2.ping = c))
    ∧ matchmakingPairs db.matchmaking
        = pairUp (sortByPing (db.matchmaking.filter
            (fun e => e.2.status = "waiting")))
    ∧ (∀ e ∈ pairLeftover (sortByPing (db.matchmaking.filter
          (fun e => e.2.status = "waiting"))),
        lookupA (matchmakingCycle db mk now).matchmaking e.1 = some e.2) := by
  refine ⟨sortByPing_sorted _, sortByPing_perm _, fun c => sortByPing_stable _ c,
    rfl, ?_⟩
  intro e he
  have hperm := sortByPing_perm (db.matchmaking.filter
    (fun e => e.2.status = "waiting"))
  have hkeysnd : nodupKeys (sortByPing (db.matchmaking.filter
      (fun e => e.2.status = "waiting"))) := by
    unfold nodupKeys
    have hsub : List.Sublist (db.matchmaking.filter
        (fun e => e.2.status = "waiting")) db.matchmaking :=
      List.filter_sublist _
    have hfn : nodupKeys (db.matchmaking.filter
        (fun e => e.2.status = "waiting")) :=
      List.Nodup.sublist (List.Sublist.map Prod.fst hsub) hn
    exact (List.Perm.nodup_iff (List.Perm.map Prod.fst hperm)).mpr hfn
  have hdecomp := pairUp_decomp (sortByPing (db.matchmaking.filter
    (fun e => e.2.status = "waiting")))
  have hmem_sorted : e ∈ sortByPing (db.matchmaking.filter
      (fun e => e.2.status = "waiting")) := by
    rw [← hdecomp]
    exact List.mem_append_right _ he
  have hmem_db : e ∈ db.matchmaking := by
    have h1 : e ∈ db.matchmaking.filter (fun e => e.2.status = "waiting") :=
      hperm.mem_iff.mp hmem_sorted
    exact List.mem_of_mem_filter h1
  have hlook : lookupA db.matchmaking e.1 = some e.2 := by
    have : (e.1, e.2) ∈ db.matchmaking := by
      simpa using hmem_db
    exact lookupA_of_mem_nodup _ _ _ this hn
  have hnotpaired : e.1 ∉ pairedIds (matchmakingPairs db.matchmaking) := by
    intro hc
    have hkeys : (sortByPing (db.matchmaking.filter
        (fun e => e.2.status = "waiting"))).map Prod.fst
        = pairedIds (matchmakingPairs db.matchmaking)
          ++ (pairLeftover (sortByPing (db.matchmaking.filter
               (fun e => e.2.status = "waiting")))).map Prod.fst := by
      unfold pairedIds matchmakingPairs
      rw [← List.map_append, hdecomp]
    have := hkeysnd
    unfold nodupKeys at this
    rw [hkeys] at this
    rcases List.nodup_append.mp this with ⟨_, _, hdisj⟩
    exact hdisj hc (List.mem_map_of_mem Prod.fst he)
  have hcycle : (matchmakingCycle db mk now).matchmaking
      = (matchmakingPairs db.matchmaking).foldl
          (fun q pr => removeA (removeA q pr.1.1) pr.2.1) db.matchmaking := by
    unfold matchmakingCycle
    exact cycle_fold_matchmaking mk now (matchmakingPairs db.matchmaking) 0 db
  rw [hcycle, lookup_removePairs _ _ hnotpaired, hlook]

/-- C5 witness: the amended cycle behavior on the concrete snapshot
database. -/
theorem c5_pairing_cycle_witness :
    matchmakingPairs snapC5
      = pairUp (sortByPing (snapC5.filter (fun e => e.2.status = "waiting"))) := by
  have h := c5_pairing_cycle
    { matchmaking := snapC5, matchProposals := [], matchesDb := [], players := [] }
    (fun n => "match-" ++ toString n) 0 (by unfold nodupKeys; decide)
  exact h.2.2.2.1

/-! ### C6 — move and shoot behavior -/

theorem lookupA_isSome_iff {κ α : Type} [DecidableEq κ] (l : List (κ × α))
    (k : κ) : (lookupA l k).isSome ↔ k ∈ l.map Prod.fst := by
  induction l with
  | nil => simp [lookupA]
  | cons e t ih =>
    by_cases he : e.1 = k
    · simp [lookupA, he]
    · have hne : ¬ k = e.1 := fun hc => he hc.symm
      simp [lookupA, he, hne, ih]

theorem enumFrom_keys (g : Nat × String → PlayerState) :
    ∀ (ps : List String) (n : Nat),
      ((List.enumFrom n ps).map (fun ie => (ie.2, g ie))).map Prod.fst = ps
  | [], _ => rfl
  | p :: t, n => by
    simp only [List.enumFrom, List.map_cons]
    rw [enumFrom_keys g t (n + 1)]

theorem initializeGameState_keys (ps : List String) (now : Nat)
    (rnd : RandOracle) :
    (initializeGameState ps now rnd).players.map Prod.fst = ps :=
  enumFrom_keys _ ps 0

theorem processGameAction_move (s : GameState) (pid : String) (pos : Pos)
    (dir : Int) (t : Nat) (p0 : PlayerState)
    (hp : lookupA s.players pid = some p0) :
    (processGameAction s pid { type := "move", position := pos, direction := dir }
        t).events = [GameEvent.playerMoved pid pos]
    ∧ lookupA (processGameAction s pid
        { type := "move", position := pos, direction := dir } t).newState.players
        pid = some { p0 with position := pos, lastAction := t } := by
  constructor
  · simp [processGameAction, hp, jsonDeepCopy]
  · simp [processGameAction, hp, jsonDeepCopy, lookupA_updateA_self]

theorem processGameAction_shoot (s : GameState) (pid : String) (pos : Pos)
    (dir : Int) (t : Nat) (p0 : PlayerState)
    (hp : lookupA s.players pid = some p0) :
    (processGameAction s pid { type := "shoot", position := pos, direction := dir }
        t).events = [GameEvent.projectileFired pid p0.position dir t]
    ∧ lookupA (processGameAction s pid
        { type := "shoot", position := pos, direction := dir } t).newState.players
        pid = some { p0 with lastAction := t } := by
  constructor
  · simp [processGameAction, hp, jsonDeepCopy]
  · simp [processGameAction, hp, jsonDeepCopy, lookupA_updateA_self]

/-- C6: on a fresh session every participant can be looked up; a `move`
updates that player's position to the action's position and emits exactly
`playerMoved`; a `shoot` emits exactly `projectileFired` from the player's
current position without mutating the position; and the sequence
[move(1,1), move(2,2)] ends at position (2,2) having emitted
[moved(1,1), moved(2,2)] in that order. -/
theorem c6_actions (ps : List String) (pid : String) (now0 t t1 t2 : Nat)
    (rnd : RandOracle) (pos : Pos) (dir : Int) (h : pid ∈ ps) :
    (lookupA (initializeGameState ps now0 rnd).players pid).isSome
    ∧ (∀ p0, lookupA (initializeGameState ps now0 rnd).players pid = some p0 →
        (processGameAction (initializeGameState ps now0 rnd) pid
            { type := "move", position := pos, direction := dir } t).events
          = [GameEvent.playerMoved pid pos]
        ∧ lookupA (processGameAction (initializeGameState ps now0 rnd) pid
            { type := "move", position := pos, direction := dir } t).newState.players
            pid = some { p0 with position := pos, lastAction := t }
        ∧ (processGameAction (initializeGameState ps now0 rnd) pid
            { type := "shoot", position := pos, direction := dir } t).events
          = [GameEvent.projectileFired pid p0.position dir t]
        ∧ (lookupA (processGameAction (initializeGameState ps now0 rnd) pid
            { type := "shoot", position := pos, direction := dir } t).newState.players
            pid).map (fun q => q.position) = some p0.position
        ∧ (lookupA (processGameAction
             (processGameAction (initializeGameState ps now0 rnd) pid
               { type := "move", position := { x := 1, y := 1 }, direction := dir }
               t1).newState pid
             { type := "move", position := { x := 2, y := 2 }, direction := dir }
             t2).newState.players pid).map (fun q => q.position)
          = some { x := 2, y := 2 }
        ∧ (processGameAction (initializeGameState ps now0 rnd) pid
              { type := "move", position := { x := 1, y := 1 }, direction := dir }
              t1).events
            ++ (processGameAction
                 (processGameAction (initializeGameState ps now0 rnd) pid
                   { type := "move", position := { x := 1, y := 1 },
                     direction := dir } t1).newState pid
                 { type := "move", position := { x := 2, y := 2 },
                   direction := dir } t2).events
          = [GameEvent.playerMoved pid { x := 1, y := 1 },
             GameEvent.playerMoved pid { x := 2, y := 2 }]) := by
  constructor
  · rw [lookupA_isSome_iff, initializeGameState_keys]
    exact h
  · intro p0 hp0
    have hmv := processGameAction_move (initializeGameState ps now0 rnd) pid pos
      dir t p0 hp0
    have hsh := processGameAction_shoot (initializeGameState ps now0 rnd) pid pos
      dir t p0 hp0
    have hmv1 := processGameAction_move (initializeGameState ps now0 rnd) pid
      { x := 1, y := 1 } dir t1 p0 hp0
    have hmv2 := processGameAction_move
      (processGameAction (initializeGameState ps now0 rnd) pid
        { type := "move", position := { x := 1, y := 1 }, direction := dir }
        t1).newState pid { x := 2, y := 2 } dir t2
      { p0 with position := { x := 1, y := 1 }, lastAction := t1 } hmv1.2
    refine ⟨hmv.1, hmv.2, hsh.1, ?_, ?_, ?_⟩
    · rw [hsh.2]
      rfl
    · rw [hmv2.2]
      rfl
    · rw [hmv1.1, hmv2.1]
      rfl

/-- C6 witness: the action behavior evaluated on a concrete fresh session
with participants P and Q. -/
theorem c6_actions_witness :
    (lookupA (initializeGameState ["P", "Q"] 0 rnd0).players "P").isSome
    ∧ (processGameAction (initializeGameState ["P", "Q"] 0 rnd0) "P"
        { type := "move", position := { x := 7, y := 8 }, direction := 0 } 3).events
      = [GameEvent.playerMoved "P" { x := 7, y := 8 }] := by
  have h := c6_actions ["P", "Q"] "P" 0 3 1 2 rnd0 { x := 7, y := 8 } 0
    (by decide)
  refine ⟨h.1, ?_⟩
  exact (h.2 { position := rnd0.pos 0, health := 100, score := 0, lastAction := 0 }
    (by rfl)).1

/-! ### C7 — copy-on-write against the heap -/

/-- C7: processGameAction mutates only the freshly allocated copy.  At every
observation point of the run the object the handler was given still holds
the original state; the reference handed back for the commit holds exactly
the fully computed pure result, and the emitted events agree with the pure
function — so a reader of the stored state sees either the old state (before
the commit rebinds the session's `gameState` to the returned reference) or
the complete new one, never a partial update. -/
theorem c7_copy_on_write (h0 : Heap) (r : Nat) (pid : String) (a : Action)
    (now : Nat) (s : GameState) (p : PlayerState)
    (hr : hread h0 r = some s) (hp : lookupA s.players pid = some p)
    (hlt : r < h0.next) :
    (∀ h' ∈ (processGameActionH h0 r pid a now).2.2.2, hread h' r = some s)
    ∧ hread (processGameActionH h0 r pid a now).1
        (processGameActionH h0 r pid a now).2.1
      = some (processGameAction s pid a now).newState
    ∧ (processGameActionH h0 r pid a now).2.2.1
      = (processGameAction s pid a now).events
    ∧ hread (processGameActionH h0 r pid a now).1 r = some s := by
  have hne : r ≠ h0.next := Nat.ne_of_lt hlt
  have hr' : lookupA h0.mem r = some s := hr
  by_cases hmv : a.type = "move"
  · simp [processGameActionH, processGameAction, hr, hp, jsonDeepCopy, halloc,
      hmodify, hread, hr', hmv, lookupA_setA_self, lookupA_setA_ne, hne]
  · by_cases hsh : a.type = "shoot"
    · simp [processGameActionH, processGameAction, hr, hp, jsonDeepCopy, halloc,
        hmodify, hread, hr', hmv, hsh, lookupA_setA_self, lookupA_setA_ne, hne]
    · by_cases hab : a.type = "ability"
      · simp [processGameActionH, processGameAction, hr, hp, jsonDeepCopy, halloc,
          hmodify, hread, hr', hmv, hsh, hab, lookupA_setA_self, lookupA_setA_ne, hne]
      · simp [processGameActionH, processGameAction, hr, hp, jsonDeepCopy, halloc,
          hmodify, hread, hr', hmv, hsh, hab, lookupA_setA_self, lookupA_setA_ne, hne]

/-- C7 witness: the copy-on-write run evaluated on a one-object heap holding
`stateC2`. -/
theorem c7_copy_on_write_witness :
    hread (processGameActionH ⟨[(0, stateC2)], 1⟩ 0 "P"
        { type := "move", position := { x := 6, y := 6 }, direction := 0 } 4).1 0
      = some stateC2 := by
  have h := c7_copy_on_write ⟨[(0, stateC2)], 1⟩ 0 "P"
    { type := "move", position := { x := 6, y := 6 }, direction := 0 } 4 stateC2
    { position := { x := 3, y := 4 }, health := 100, score := 0, lastAction := 0 }
    (by decide) (by decide) (by decide)
  exact h.2.2.2

/-! ### C8 — the shared gameSessions map -/

/-- A game session stored under the key "room". -/
def gRoom : GameSessionRec :=
  { players := ["P"], startedAt := 0, lastUpdate := 0, lastActivity := none,
    gameState := stateC2 }

/-- A server state whose only entry is the game session at key "room". -/
def sC8 : ServerState :=
  { playersConnected := 1, serverLoad := 5, lastPing := 0,
    gameSessions := [("room", SessionRec.game gRoom)], matchmakingQueue := [] }

/-- C8 counterexample.  Player-session and game-session records are NOT
independently keyed: both live in the single `serverState.gameSessions` map,
so `/api/connect` for a playerId equal to an existing matchId ("room")
overwrites — and thereby destroys — the match's GameSession record. -/
theorem c8_shared_map_counterexample :
    lookupA sC8.gameSessions "room" = some (SessionRec.game gRoom)
    ∧ lookupA (apiConnect sC8 "room" [] 3).1.gameSessions "room"
        ≠ some (SessionRec.game gRoom)
    ∧ lookupA (apiConnect sC8 "room" [] 3).1.gameSessions "room"
        = some (SessionRec.player
            { connectedAt := 3, lastActivity := 3, clientInfo := [],
              status := "connected" }) := by
  decide

/-- C8 (amended): both record kinds share the single string-keyed map
`serverState.gameSessions`.  Each write touches exactly its own key:
connect(pid) and heartbeat(pid) leave every binding at a key other than pid
unchanged, and the game-session creation of an accepting confirm leaves
every binding at a key other than its matchId unchanged — so records of the
other kind are only safe as long as their keys differ, and a key collision
overwrites (counterexample). -/
theorem c8_key_isolation (s : ServerState) (db : DB) (pid mid k : String)
    (info : List (String × String)) (now : Nat) (rnd : RandOracle)
    (hk : k ≠ pid) (hkm : k ≠ mid) :
    lookupA (apiConnect s pid info now).1.gameSessions k
      = lookupA s.gameSessions k
    ∧ lookupA (apiHeartbeat s pid now).1.gameSessions k
      = lookupA s.gameSessions k
    ∧ lookupA (confirmAccept s db pid mid now rnd).1.gameSessions k
      = lookupA s.gameSessions k := by
  refine ⟨?_, ?_, ?_⟩
  · unfold apiConnect
    by_cases hpid : pid = ""
    · rw [if_pos hpid]
    · rw [if_neg hpid]
      exact lookupA_setA_ne _ _ _ _ hk
  · unfold apiHeartbeat
    by_cases hpid : pid = ""
    · rw [if_pos hpid]
    · rw [if_neg hpid]
      cases hrec : lookupA s.gameSessions pid with
      | none => rfl
      | some rec =>
        cases rec with
        | player prec => exact lookupA_setA_ne _ _ _ _ hk
        | game grec => exact lookupA_setA_ne _ _ _ _ hk
  · cases hlm : lookupA (updMatchPlayerReady db.matchesDb mid pid now) mid with
    | none => simp [confirmAccept, hlm]
    | some m =>
      by_cases hall : (m.players.all (fun p => p.2.status = "ready")) = true
      · simp [confirmAccept, hlm, hall, lookupA_setA_ne, hkm]
      · simp [confirmAccept, hlm, hall]

/-- C8 witness: key isolation evaluated at distinct concrete keys. -/
theorem c8_key_isolation_witness :
    lookupA (apiConnect sC8 "P2" [] 3).1.gameSessions "room"
      = lookupA sC8.gameSessions "room" := by
  have h := c8_key_isolation sC8 dbC4 "P2" "m" "room" [] 3 rnd0
    (by decide) (by decide)
  exact h.1

/-! ### C9 — confirmation-timeout firing -/

/-- C9: the deadline timer fires MATCH_CONFIRMATION_TIMEOUT = 15000 ms after
the proposal.  If the match still exists in its proposed ('pending') state,
it transitions to cancelled with reason confirmation_timeout, and every
participant whose `players/` node still exists (the connectedness proxy the
source uses) holds exactly one queue entry afterwards, with status
'waiting'; participants without a `players/` node keep their previous queue
binding.  If the match is gone or in any other (terminal) state, the firing
changes nothing. -/
theorem c9_confirmation_timeout (db : DB) (mid : String) (now : Nat)
    (hn : nodupKeys db.matchmaking) :
    MATCH_CONFIRMATION_TIMEOUT = 15000
    ∧ (∀ m, lookupA db.matchesDb mid = some m → m.status = "pending" →
        (lookupA (matchExpirationFire db mid now).matchesDb mid =
           some { m with status := "cancelled",
                         reason := some "confirmation_timeout" })
        ∧ (∀ pid pd, pid ∈ m.players.map Prod.fst →
             lookupA db.players pid = some pd →
               lookupA (matchExpirationFire db mid now).matchmaking pid =
                 some { ping := pd.ping, score := pd.score, status := "waiting",
                        timestamp := now }
               ∧ countKey (matchExpirationFire db mid now).matchmaking pid = 1)
        ∧ (∀ pid, lookupA db.players pid = none →
             lookupA (matchExpirationFire db mid now).matchmaking pid
               = lookupA db.matchmaking pid))
    ∧ (∀ m, lookupA db.matchesDb mid = some m → m.status ≠ "pending" →
        matchExpirationFire db mid now = db)
    ∧ (lookupA db.matchesDb mid = none → matchExpirationFire db mid now = db) := by
  refine ⟨rfl, ?_, ?_, ?_⟩
  · intro m hm hpend
    have hfire : matchExpirationFire db mid now =
        { db with
            matchesDb := setA db.matchesDb mid
              { m with status := "cancelled",
                       reason := some "confirmation_timeout" },
            matchmaking := requeueAll db.players now m.players db.matchmaking } := by
      simp only [matchExpirationFire, hm, hpend, if_pos]
    rw [hfire]
    refine ⟨lookupA_setA_self _ _ _, ?_, ?_⟩
    · intro pid pd hmem hpd
      constructor
      · exact requeueAll_lookup_some db.players now m.players pid pd hmem hpd _
      · exact countKey_eq_one_of_lookup _ _ _
          (requeueAll_lookup_some db.players now m.players pid pd hmem hpd _)
          (requeueAll_nodup db.players now m.players _ hn)
    · intro pid hpd
      exact requeueAll_lookup_players_none db.players now m.players pid hpd _
  · intro m hm hnp
    simp only [matchExpirationFire, hm, if_neg hnp]
  · intro hm
    simp only [matchExpirationFire, hm]

/-- C9 witness: the timeout firing evaluated on the concrete proposed match
of `dbC1` (both participants hold `players/` nodes). -/
theorem c9_confirmation_timeout_witness :
    lookupA (matchExpirationFire dbC1 "m" 20).matchmaking "A"
      = some { ping := 4, score := 0, status := "waiting", timestamp := 20 } := by
  have h := c9_confirmation_timeout dbC1 "m" 20 (by unfold nodupKeys; decide)
  have hm : lookupA dbC1.matchesDb "m" =
      some { id := "m",
             players := [("A", mpWaiting 1 4 0), ("B", mpWaiting 2 5 0)],
             status := "pending", reason := none, rejectedBy := none,
             createdAt := 3 } := by
    decide
  exact ((h.2.1 _ hm (by decide)).2.1 "A" { ping := 4, score := 0 } (by decide)
    (by decide)).1

/-! ### C10 — the in-memory queue is append-only and never read -/

theorem cleanupPlayer_queue (s : ServerState) (pid : String) :
    (cleanupPlayer s pid).1.matchmakingQueue = s.matchmakingQueue := by
  simp only [cleanupPlayer]
  split
  · rfl
  · rfl

theorem cleanupSweepLoop_queue (now : Nat) :
    ∀ (keys : List String) (s : ServerState),
      (cleanupSweepLoop now keys s).1.matchmakingQueue = s.matchmakingQueue := by
  intro keys
  induction keys with
  | nil => intro s; rfl
  | cons k t ih =>
    intro s
    simp only [cleanupSweepLoop]
    cases hrec : lookupA s.gameSessions k with
    | none => rfl
    | some rec =>
      cases rec with
      | player p =>
        by_cases hto : PLAYER_TIMEOUT < now - p.lastActivity
        · simp only [if_pos hto]
          by_cases hthrew : (cleanupPlayer s k).2
          · simp [hthrew, cleanupPlayer_queue]
          · simp [hthrew, ih, cleanupPlayer_queue]
        · simp [if_neg hto, ih]
      | game g =>
        cases hla : g.lastActivity with
        | none => simp [hla, ih]
        | some t0 =>
          by_cases hto : PLAYER_TIMEOUT < now - t0
          · simp only [hla, if_pos hto]
            by_cases hthrew : (cleanupPlayer s k).2
            · simp [hthrew, cleanupPlayer_queue]
            · simp [hthrew, ih, cleanupPlayer_queue]
          · simp [hla, if_neg hto, ih]

theorem cleanupSweep_queue (s : ServerState) (now : Nat) :
    (cleanupSweep s now).1.matchmakingQueue = s.matchmakingQueue := by
  unfold cleanupSweep
  by_cases h : (cleanupSweepLoop now (s.gameSessions.map (fun e => e.1)) s).2
  · simp [h, cleanupSweepLoop_queue]
  · simp [h, cleanupSweepLoop_queue]

/-- C10: the in-memory `serverState.matchmakingQueue` is append-only and
never consulted.  Queue-join either leaves it unchanged (duplicate) or
appends exactly one entry, and the join's decision, database effect and
response are the same whatever the in-memory queue holds; every other
embedded operation that touches `serverState` — confirm-accept, connect,
heartbeat, disconnect, cleanupPlayer, the cleanup sweep, game actions —
preserves the queue verbatim.  The pairing cycle (`matchmakingCycle`), the
reject branch (`confirmReject`) and the timeout firing
(`matchExpirationFire`) take no `ServerState` at all: they are functions of
the external database only, as in the source. -/
theorem c10_inmemory_queue_append_only (s : ServerState) (db : DB)
    (pid mid : String) (d : PlayerData) (info : List (String × String))
    (a : Action) (now : Nat) (rnd : RandOracle) (q' : List MemQueueEntry) :
    ((apiMatchmakingJoin s db pid d now).1.matchmakingQueue = s.matchmakingQueue
      ∨ (apiMatchmakingJoin s db pid d now).1.matchmakingQueue
          = s.matchmakingQueue
            ++ [{ playerId := pid, ping := d.ping, score := d.score,
                  timestamp := now }])
    ∧ (apiMatchmakingJoin { s with matchmakingQueue := q' } db pid d now).2
        = (apiMatchmakingJoin s db pid d now).2
    ∧ (confirmAccept s db pid mid now rnd).1.matchmakingQueue = s.matchmakingQueue
    ∧ (apiConnect s pid info now).1.matchmakingQueue = s.matchmakingQueue
    ∧ (apiHeartbeat s pid now).1.matchmakingQueue = s.matchmakingQueue
    ∧ (apiDisconnect s pid).1.matchmakingQueue = s.matchmakingQueue
    ∧ (cleanupPlayer s pid).1.matchmakingQueue = s.matchmakingQueue
    ∧ (cleanupSweep s now).1.matchmakingQueue = s.matchmakingQueue
    ∧ (apiGameAction s mid pid a now).1.matchmakingQueue = s.matchmakingQueue := by
  refine ⟨?_, ?_, ?_, ?_, ?_, ?_, cleanupPlayer_queue s pid, cleanupSweep_queue s now, ?_⟩
  · cases hdup : lookupA db.matchmaking pid with
    | some v =>
      left
      simp [apiMatchmakingJoin, hdup]
    | none =>
      right
      simp [apiMatchmakingJoin, hdup]
  · cases hdup : lookupA db.matchmaking pid with
    | some v => simp [apiMatchmakingJoin, hdup]
    | none => simp [apiMatchmakingJoin, hdup]
  · cases hlm : lookupA (updMatchPlayerReady db.matchesDb mid pid now) mid with
    | none => simp [confirmAccept, hlm]
    | some m =>
      by_cases hall : (m.players.all (fun p => p.2.status = "ready")) = true
      · simp [confirmAccept, hlm, hall]
      · simp [confirmAccept, hlm, hall]
  · by_cases hpid : pid = ""
    · simp [apiConnect, hpid]
    · simp [apiConnect, hpid]
  · by_cases hpid : pid = ""
    · simp [apiHeartbeat, hpid]
    · cases hrec : lookupA s.gameSessions pid with
      | none => simp [apiHeartbeat, hpid, hrec]
      | some rec =>
        cases rec with
        | player p => simp [apiHeartbeat, hpid, hrec]
        | game g => simp [apiHeartbeat, hpid, hrec]
  · by_cases hpid : pid = ""
    · simp [apiDisconnect, hpid]
    · cases hrec : lookupA s.gameSessions pid with
      | none => simp [apiDisconnect, hpid, hrec]
      | some rec =>
        by_cases hthrew : (cleanupPlayer s pid).2
        · simp [apiDisconnect, hpid, hrec, hthrew, cleanupPlayer_queue]
        · simp [apiDisconnect, hpid, hrec, hthrew, cleanupPlayer_queue]
  · cases hrec : lookupA s.gameSessions mid with
    | none => simp [apiGameAction, hrec]
    | some rec =>
      cases rec with
      | player p => simp [apiGameAction, hrec]
      | game g =>
        by_cases hmem : pid ∈ g.players
        · simp [apiGameAction, hrec, hmem]
        · simp [apiGameAction, hrec, hmem]

end GameServer
